import Mathlib

/-!
Verification development for the brandbook-visualizer repository.

The definitions in this file are a shallow embedding of the JavaScript
source (the authoritative, feature-complete variant of `src/js/pdf.js`
and the `BrandbookModule` data store in `src/tests/visual-tests.js`).
JavaScript numbers are modelled as `ℚ` (exact arithmetic), strings as
Lean `String` / `List Char`, fallible asynchronous steps as
`Except` / `Option`, and the DOM / rasterizer environment as an explicit
`GenEnv` record of outcomes.
-/

namespace BV

/-! ## Brandbook data model (BrandbookModule, visual-tests.js) -/

/-- One palette entry `{ hex, name, optional? }`. -/
structure ColorEntry where
  hex : String
  name : String
  optional : Option Bool
  deriving Repr, DecidableEq

/-- The `colors` object: `accent` may be `null`. -/
structure Colors where
  primary : ColorEntry
  secondary : ColorEntry
  accent : Option ColorEntry
  deriving Repr, DecidableEq

/-- One typography entry `{ family, source, weights, usage, optional? }`. -/
structure FontEntry where
  family : String
  source : String
  weights : List Int
  usage : String
  optional : Option Bool
  deriving Repr, DecidableEq

/-- The `typography` object: `secondary` may be `null`. -/
structure Typography where
  primary : FontEntry
  secondary : Option FontEntry
  deriving Repr, DecidableEq

/-- The `logo` object: each representation is a data URL or `null`. -/
structure Logo where
  svg : Option String
  png : Option String
  usage : String
  deriving Repr, DecidableEq

/-- The `meta` object. -/
structure MetaInfo where
  name : String
  created : String
  generator : String
  deriving Repr, DecidableEq

/-- The whole brandbook state held by `BrandbookModule`. -/
structure Brandbook where
  version : String
  meta : MetaInfo
  colors : Colors
  typography : Typography
  logo : Logo
  deriving Repr, DecidableEq

/-- Embedding of `createEmptyBrandbook()`; `now` stands for
`new Date().toISOString()`. -/
def createEmptyBrandbook (now : String) : Brandbook :=
  { version := "1.0"
  , meta := { name := "My Brand", created := now, generator := "brandbook-visualizer" }
  , colors :=
    { primary := { hex := "#FF5733", name := "Sunset Orange", optional := none }
    , secondary := { hex := "#2C3E50", name := "Midnight Blue", optional := none }
    , accent := some { hex := "#27AE60", name := "Emerald", optional := some true } }
  , typography :=
    { primary :=
      { family := "Montserrat", source := "google", weights := [400, 700]
      , usage := "Headings", optional := none }
    , secondary := some (
      { family := "Open Sans", source := "google", weights := [400, 600]
      , usage := "Body text", optional := some true }) }
  , logo := { svg := none, png := none, usage := "Primary logo" } }

/-- JavaScript `a || b` on nullable strings: `null` and `""` are falsy. -/
def jsOrStr : Option String → Option String → Option String
  | some s, b => if s = "" then b else some s
  | none, b => b

/-- Embedding of `getLogoUrl()`: `logo.svg || logo.png || null`. -/
def getLogoUrl (bb : Brandbook) : Option String :=
  jsOrStr bb.logo.svg (jsOrStr bb.logo.png none)

/-! ## Color utilities (`hexToRgb`, pdf.js) -/

/-- An RGB triple with channel values. -/
structure Rgb where
  r : Nat
  g : Nat
  b : Nat
  deriving Repr, DecidableEq

/-- A character matched by the regex class `[a-f\d]` with the `i` flag. -/
def isHexDigitChar (c : Char) : Bool :=
  (decide ('0' ≤ c) && decide (c ≤ '9')) ||
  (decide ('a' ≤ c) && decide (c ≤ 'f')) ||
  (decide ('A' ≤ c) && decide (c ≤ 'F'))

/-- Numeric value of a hex digit, as `parseInt(-, 16)` assigns it. -/
def hexDigitVal (c : Char) : Nat :=
  if decide ('0' ≤ c) && decide (c ≤ '9') then c.toNat - '0'.toNat
  else if decide ('a' ≤ c) && decide (c ≤ 'f') then c.toNat - 'a'.toNat + 10
  else if decide ('A' ≤ c) && decide (c ≤ 'F') then c.toNat - 'A'.toNat + 10
  else 0

/-- Strip the optional leading `#` (the `#?` of the regex). -/
def hexBody : List Char → List Char
  | '#' :: rest => rest
  | cs => cs

/-- The regex `/^#?([a-f\d]{2})([a-f\d]{2})([a-f\d]{2})$/i` as a matcher:
on success, returns the six digit characters. -/
def hexMatch (cs : List Char) : Option (List Char) :=
  let body := hexBody cs
  if body.length = 6 && body.all isHexDigitChar then some body else none

/-- The channel values `parseInt` extracts from the three 2-digit groups. -/
def rgbOfDigits : List Char → Rgb
  | [d1, d2, d3, d4, d5, d6] =>
    { r := 16 * hexDigitVal d1 + hexDigitVal d2
    , g := 16 * hexDigitVal d3 + hexDigitVal d4
    , b := 16 * hexDigitVal d5 + hexDigitVal d6 }
  | _ => { r := 0, g := 0, b := 0 }

/-- Embedding of `hexToRgb(hex)` from pdf.js: regex match, else black. -/
def hexToRgb (s : String) : Rgb :=
  match hexMatch s.data with
  | some ds => rgbOfDigits ds
  | none => { r := 0, g := 0, b := 0 }

/-! ## Fit calculator (`calculateFitDimensions`, pdf.js) -/

/-- Embedding of `calculateFitDimensions(sourceWidth, sourceHeight,
maxWidth, maxHeight)`. -/
def calculateFitDimensions (sourceWidth sourceHeight maxWidth maxHeight : ℚ) : ℚ × ℚ :=
  let width := maxWidth
  let height := (sourceHeight / sourceWidth) * width
  if height > maxHeight then
    let height2 := maxHeight
    let width2 := (sourceWidth / sourceHeight) * height2
    (width2, height2)
  else
    (width, height)

/-! ## Title-page gradient (`addTitlePage`, pdf.js) -/

/-- JavaScript `Math.round`: round half toward positive infinity. -/
def jsRound (q : ℚ) : ℤ := Int.floor (q + 1 / 2)

/-- The `gradientSteps` constant of `addTitlePage`. -/
def gradientSteps : Nat := 50

/-- Fill color of the `i`-th slice of the title-page gradient bar:
`Math.round(primary.c + (secondary.c - primary.c) * (i / gradientSteps))`
per channel. -/
def titleGradientColor (bb : Brandbook) (i : Nat) : ℤ × ℤ × ℤ :=
  let primaryColor := hexToRgb bb.colors.primary.hex
  let secondaryColor := hexToRgb bb.colors.secondary.hex
  let t : ℚ := (i : ℚ) / (gradientSteps : ℚ)
  ( jsRound ((primaryColor.r : ℚ) + ((secondaryColor.r : ℚ) - (primaryColor.r : ℚ)) * t)
  , jsRound ((primaryColor.g : ℚ) + ((secondaryColor.g : ℚ) - (primaryColor.g : ℚ)) * t)
  , jsRound ((primaryColor.b : ℚ) + ((secondaryColor.b : ℚ) - (primaryColor.b : ℚ)) * t) )

/-- The spec's midpoint value for one channel: the channel-wise average
computed as `Math.round(c1 + (c2 - c1) * 0.5)`. -/
def midpointChannel (c1 c2 : Nat) : ℤ :=
  jsRound ((c1 : ℚ) + ((c2 : ℚ) - (c1 : ℚ)) * (1 / 2))

/-! ## Store mutators (BrandbookModule, visual-tests.js) -/

/-- The color slot selected by the `type` argument of `setColor`. -/
inductive ColorType where
  | primary
  | secondary
  | accent
  deriving Repr, DecidableEq

/-- Embedding of `setBrandName(name)`. -/
def setBrandName (bb : Brandbook) (name : String) : Brandbook :=
  { bb with meta := { bb.meta with name := name } }

/-- Embedding of `setColor(type, hex, name)`: the guard
`if (currentBrandbook.colors[type])` makes the call a no-op when the
slot is `null` (possible only for `accent`). -/
def setColor (bb : Brandbook) (t : ColorType) (hex name : String) : Brandbook :=
  match t with
  | .primary =>
    { bb with colors := { bb.colors with
        primary := { bb.colors.primary with hex := hex, name := name } } }
  | .secondary =>
    { bb with colors := { bb.colors with
        secondary := { bb.colors.secondary with hex := hex, name := name } } }
  | .accent =>
    match bb.colors.accent with
    | some a =>
      { bb with colors := { bb.colors with
          accent := some { a with hex := hex, name := name } } }
    | none => bb

/-- The font slot selected by the `type` argument of `setTypography`. -/
inductive FontType where
  | primary
  | secondary
  deriving Repr, DecidableEq

/-- Embedding of `setTypography(type, family, usage)`; no-op when the
slot is `null` (possible only for `secondary`). -/
def setTypography (bb : Brandbook) (t : FontType) (family usage : String) : Brandbook :=
  match t with
  | .primary =>
    { bb with typography := { bb.typography with
        primary := { bb.typography.primary with family := family, usage := usage } } }
  | .secondary =>
    match bb.typography.secondary with
    | some f =>
      { bb with typography := { bb.typography with
          secondary := some { f with family := family, usage := usage } } }
    | none => bb

/-- Embedding of the success path of `setLogo(file)`: the file was read
to `dataUrl` and `isSvg` reflects `file.type === 'image/svg+xml'`.
Setting one representation clears the other. -/
def setLogo (bb : Brandbook) (isSvg : Bool) (dataUrl : String) : Brandbook :=
  if isSvg then
    { bb with logo := { bb.logo with svg := some dataUrl, png := none } }
  else
    { bb with logo := { bb.logo with png := some dataUrl, svg := none } }

/-- Embedding of `clearLogo()`. -/
def clearLogo (bb : Brandbook) : Brandbook :=
  { bb with logo := { bb.logo with svg := none, png := none } }

/-! ### Imported JSON payloads

A parsed `.brandbook` file is modelled as a partial brandbook: each
field is present (overriding the default on spread-merge) or absent.
This is the type-correct subset of JSON payloads the import path
accepts; `Option (Option _)` distinguishes an absent key from an
explicit `null` value. -/

/-- Partial `meta` object of an imported file. -/
structure PartialMetaInfo where
  name : Option String
  created : Option String
  generator : Option String
  deriving Repr, DecidableEq

/-- Partial `colors` object of an imported file. -/
structure PartialColors where
  primary : Option ColorEntry
  secondary : Option ColorEntry
  accent : Option (Option ColorEntry)
  deriving Repr, DecidableEq

/-- Partial `typography` object of an imported file. -/
structure PartialTypography where
  primary : Option FontEntry
  secondary : Option (Option FontEntry)
  deriving Repr, DecidableEq

/-- Partial `logo` object of an imported file. -/
structure PartialLogo where
  svg : Option (Option String)
  png : Option (Option String)
  usage : Option String
  deriving Repr, DecidableEq

/-- A parsed import payload (the result of `JSON.parse` on the file). -/
structure ImportData where
  version : Option String
  meta : Option PartialMetaInfo
  colors : Option PartialColors
  typography : Option PartialTypography
  logo : Option PartialLogo
  deriving Repr, DecidableEq

/-- Spread-merge `{ ...d, ...p }` for the `meta` object. -/
def mergeMeta (d : MetaInfo) (p : PartialMetaInfo) : MetaInfo :=
  { name := p.name.getD d.name
  , created := p.created.getD d.created
  , generator := p.generator.getD d.generator }

/-- Spread-merge `{ ...d, ...p }` for the `colors` object. -/
def mergeColors (d : Colors) (p : PartialColors) : Colors :=
  { primary := p.primary.getD d.primary
  , secondary := p.secondary.getD d.secondary
  , accent := p.accent.getD d.accent }

/-- Spread-merge `{ ...d, ...p }` for the `typography` object. -/
def mergeTypography (d : Typography) (p : PartialTypography) : Typography :=
  { primary := p.primary.getD d.primary
  , secondary := p.secondary.getD d.secondary }

/-- Spread-merge `{ ...d, ...p }` for the `logo` object. -/
def mergeLogo (d : Logo) (p : PartialLogo) : Logo :=
  { svg := p.svg.getD d.svg
  , png := p.png.getD d.png
  , usage := p.usage.getD d.usage }

/-- An absent `logo` key spreads as the empty object. -/
def emptyPartialLogo : PartialLogo :=
  { svg := none, png := none, usage := none }

/-- Embedding of `importFromFile(file)` after `JSON.parse` succeeded:
validates that `version`, `meta`, `colors` and `typography` are truthy
(for `version`, a string, truthy means non-empty), then merges the
payload over `createEmptyBrandbook()`. Returns `none` when the promise
rejects. -/
def importFromFile (now : String) (d : ImportData) : Option Brandbook :=
  match d.version, d.meta, d.colors, d.typography with
  | some v, some pm, some pc, some pt =>
    if v = "" then none
    else
      let deflt := createEmptyBrandbook now
      some
        { version := v
        , meta := mergeMeta deflt.meta pm
        , colors := mergeColors deflt.colors pc
        , typography := mergeTypography deflt.typography pt
        , logo := mergeLogo deflt.logo (d.logo.getD emptyPartialLogo) }
  | _, _, _, _ => none

/-! ## PDF generation pipeline (pdf.js, feature-complete variant)

Page geometry constants (A4 in millimeters). -/

/-- `PAGE_WIDTH = 210`. -/
def pageWidth : ℚ := 210

/-- `PAGE_HEIGHT = 297`. -/
def pageHeight : ℚ := 297

/-- `MARGIN = 25`. -/
def pageMargin : ℚ := 25

/-- `CONTENT_WIDTH = PAGE_WIDTH - MARGIN * 2`. -/
def contentWidth : ℚ := pageWidth - pageMargin * 2

/-- Substring test on character lists, the semantics of
`String.prototype.includes`. -/
def subOf (needle : List Char) : List Char → Bool
  | [] => needle.isEmpty
  | c :: rest => needle.isPrefixOf (c :: rest) || subOf needle rest

/-- JavaScript `s.includes(sub)`. -/
def strIncludes (s sub : String) : Bool := subOf sub.data s.data

/-- Outcome of the environment for one mockup during `captureMockups`:
the source DOM node may be missing (`continue`), the capture attempt may
throw (rasterization or image-decode failure, handled by `catch`), or it
succeeds with encoded image data and decoded pixel dimensions. -/
inductive MockupOutcome where
  | noElement
  | failed
  | ok (imgData : String) (width height : Nat)
  deriving Repr, DecidableEq

/-- True when the capture attempt produced a record. -/
def MockupOutcome.isOk : MockupOutcome → Bool
  | .ok _ _ _ => true
  | _ => false

/-- The environment of one `generatePdf()` run: the brandbook snapshot,
the logo image-load outcome (`some (width, height)` when the data URL
decodes, `none` when `img.onerror` fires), the per-mockup capture
outcome, and whether QR encoding succeeds. -/
structure GenEnv where
  brandbook : Brandbook
  logoPreload : Option (Nat × Nat)
  mockupOutcome : String → MockupOutcome
  qrOk : Bool

/-- Cached-logo record produced by `preloadLogo` (image bytes are opaque
to every property proved here and are omitted). -/
structure CachedLogo where
  format : String
  width : Nat
  height : Nat
  deriving Repr, DecidableEq

/-- Errors that escape `generatePdf`: the only unguarded awaited step is
`preloadLogo` (every capture, font-embed and QR failure is caught
locally). -/
inductive GenError where
  | logoPreloadFailed
  deriving Repr, DecidableEq

/-- Embedding of `preloadLogo()`: resolves `null` with no logo URL,
rejects when the image fails to load, otherwise picks the format from
the data URL (`image/svg` is re-encoded to PNG, `image/png` kept as PNG,
anything else treated as JPEG). -/
def preloadLogo (env : GenEnv) : Except GenError (Option CachedLogo) :=
  match getLogoUrl env.brandbook with
  | none => .ok none
  | some logoUrl =>
    match env.logoPreload with
    | none => .error .logoPreloadFailed
    | some (w, h) =>
      if strIncludes logoUrl "image/svg" then .ok (some { format := "PNG", width := w, height := h })
      else if strIncludes logoUrl "image/png" then .ok (some { format := "PNG", width := w, height := h })
      else .ok (some { format := "JPEG", width := w, height := h })

/-- One entry of the `mockupConfigs` array in `captureMockups`. -/
structure MockupConfig where
  id : String
  title : String
  num : String
  deriving Repr, DecidableEq

/-- The fixed, ordered `mockupConfigs` array with its pre-assigned
header labels. -/
def mockupConfigs : List MockupConfig :=
  [ { id := "mockup-business-card", title := "Business Card", num := "05" }
  , { id := "mockup-social-avatar", title := "Social Avatar", num := "06" }
  , { id := "mockup-letterhead", title := "Letterhead", num := "07" }
  , { id := "mockup-envelope", title := "Envelope", num := "08" }
  , { id := "mockup-presentation", title := "Presentation", num := "09" } ]

/-- A capture record pushed onto `captures` for one successful mockup. -/
structure CaptureRecord where
  id : String
  title : String
  num : String
  imgData : String
  width : Nat
  height : Nat
  format : String
  deriving Repr, DecidableEq

/-- The body of one iteration of the capture loop: a record on success,
nothing when the node is missing or the attempt throws. -/
def captureOne (env : GenEnv) (config : MockupConfig) : Option CaptureRecord :=
  match env.mockupOutcome config.id with
  | .ok d w h =>
    some { id := config.id, title := config.title, num := config.num
         , imgData := d, width := w, height := h, format := "JPEG" }
  | _ => none

/-- Embedding of `captureMockups(brandbook)`: a sequential loop over
`mockupConfigs` that pushes a record per successful capture and skips
missing nodes and caught failures. -/
def captureMockups (env : GenEnv) : List CaptureRecord :=
  List.foldl
    (fun acc config =>
      match env.mockupOutcome config.id with
      | .ok d w h =>
        acc ++ [{ id := config.id, title := config.title, num := config.num
                , imgData := d, width := w, height := h, format := "JPEG" }]
      | _ => acc)
    [] mockupConfigs

/-- Observable events of the capture loop: a capture attempt on a found
node begins (clone staged, rasterizer invoked) and later finishes
(record pushed or exception caught). A missing node emits nothing
(`continue` before any attempt). -/
inductive CapEvent where
  | begun (id : String)
  | finished (id : String)
  deriving Repr, DecidableEq

/-- The event trace of the capture loop of `captureMockups`: the loop
body runs to completion (under `await`) before the next iteration
starts. -/
def captureTrace (env : GenEnv) : List CapEvent :=
  List.foldl
    (fun acc config =>
      match env.mockupOutcome config.id with
      | .noElement => acc
      | _ => acc ++ [CapEvent.begun config.id, CapEvent.finished config.id])
    [] mockupConfigs

/-- One entry of `MOCKUP_LAYOUTS`. -/
structure MockupLayout where
  yPos : ℚ
  maxWidth : ℚ
  deriving Repr, DecidableEq

/-- The `MOCKUP_LAYOUTS` table. -/
def mockupLayouts (id : String) : Option MockupLayout :=
  if id = "mockup-business-card" then some { yPos := 70, maxWidth := contentWidth }
  else if id = "mockup-social-avatar" then some { yPos := 70, maxWidth := contentWidth }
  else if id = "mockup-letterhead" then some { yPos := 70, maxWidth := contentWidth }
  else if id = "mockup-envelope" then some { yPos := 95, maxWidth := pageWidth - 20 }
  else if id = "mockup-presentation" then some { yPos := 105, maxWidth := pageWidth - 20 }
  else none

/-- The `DEFAULT_MOCKUP_LAYOUT` fallback. -/
def defaultMockupLayout : MockupLayout := { yPos := 70, maxWidth := contentWidth }

/-- One emitted page of the document, with the data the page builders
put on it that the properties below observe: header label strings
(`addModernPageHeader`), footer page indices (`addPageNumber`), and the
fitted image placement on mockup pages. -/
inductive Page where
  | title (hasLogo : Bool) (brandName : String)
  | palette (num : String) (footer : Nat)
  | typography (num : String) (footer : Nat)
  | logoPage (num : String) (footer : Nat)
  | mockup (id mtitle num : String) (w h x y : ℚ) (footer : Nat)
  | qr (hasQrImage : Bool) (num : String) (footer : Nat)
  deriving Repr, DecidableEq

/-- The content type of a page. -/
inductive PageTag where
  | title
  | palette
  | typography
  | logoPage
  | mockup
  | qr
  deriving Repr, DecidableEq

/-- Tag of a page. -/
def pageTag : Page → PageTag
  | .title _ _ => .title
  | .palette _ _ => .palette
  | .typography _ _ => .typography
  | .logoPage _ _ => .logoPage
  | .mockup _ _ _ _ _ _ _ _ => .mockup
  | .qr _ _ _ => .qr

/-- The loop body of `addMockupPagesFromCaptures`: one page per capture
record, footer counter incremented once per page. -/
def addMockupPagesGo : Nat → List CaptureRecord → List Page
  | _, [] => []
  | pageNum, c :: rest =>
    let layout := (mockupLayouts c.id).getD defaultMockupLayout
    let maxHeight := pageHeight - 100
    let fit := calculateFitDimensions (c.width : ℚ) (c.height : ℚ) layout.maxWidth maxHeight
    let xPos := (pageWidth - fit.1) / 2
    Page.mockup c.id c.title c.num fit.1 fit.2 xPos layout.yPos pageNum
      :: addMockupPagesGo (pageNum + 1) rest

/-- Embedding of `addMockupPagesFromCaptures(pdf, captures, brandbook)`:
the footer counter starts at 5 when a logo is set
(`BrandbookModule.getLogoUrl() ? 5 : 4`). -/
def addMockupPagesFromCaptures (logoSet : Bool) (captures : List CaptureRecord) : List Page :=
  addMockupPagesGo (if logoSet then 5 else 4) captures

/-- The conditional logo page (`if (cachedLogo) { ... addLogoPage ... }`). -/
def logoPageOpt (cachedLogo : Option CachedLogo) : List Page :=
  match cachedLogo with
  | some _ => [Page.logoPage "03" 4]
  | none => []

/-- Embedding of `generatePdf()` as the page sequence it emits: preload
the logo (the one failure that propagates), capture mockups, then emit
title, palette, typography, the logo page when a cached logo exists, one
page per capture, and the QR page with its logo-dependent header label
and footer index. -/
def generatePdf (env : GenEnv) : Except GenError (List Page) :=
  (preloadLogo env).map fun cachedLogo =>
    let captures := captureMockups env
    let logoSet := (getLogoUrl env.brandbook).isSome
    [ Page.title cachedLogo.isSome env.brandbook.meta.name
    , Page.palette "01" 2
    , Page.typography "02" 3 ]
    ++ logoPageOpt cachedLogo
    ++ addMockupPagesFromCaptures logoSet captures
    ++ [Page.qr env.qrOk (if logoSet then "10" else "09") (if logoSet then 10 else 9)]

/-- Pages of a generation result (empty when generation rejected). -/
def getPages : Except GenError (List Page) → List Page
  | .ok pages => pages
  | .error _ => []

/-- Header labels of the mockup pages of a document, in emission order. -/
def mockupHeaderNums (pages : List Page) : List String :=
  pages.filterMap fun p =>
    match p with
    | .mockup _ _ n _ _ _ _ _ => some n
    | _ => none

/-- Footer indices of the mockup pages of a document, in emission order. -/
def mockupFooterNums (pages : List Page) : List Nat :=
  pages.filterMap fun p =>
    match p with
    | .mockup _ _ _ _ _ _ _ f => some f
    | _ => none

/-- Header labels of the QR pages of a document. -/
def qrHeaderNums (pages : List Page) : List String :=
  pages.filterMap fun p =>
    match p with
    | .qr _ n _ => some n
    | _ => none

/-- Footer indices of the QR pages of a document. -/
def qrFooterNums (pages : List Page) : List Nat :=
  pages.filterMap fun p =>
    match p with
    | .qr _ _ f => some f
    | _ => none

/-! ## Share URL pipeline (generateShareUrl / importFromUrlData)

The JavaScript pipeline is
`btoa(unescape(encodeURIComponent(JSON.stringify(data))))` with trailing
`=` stripped, and back. `unescape(encodeURIComponent(s))` is exactly the
UTF-8 byte encoding of `s`, and `decodeURIComponent(escape(b))` its
inverse, so the layers modelled are: a JSON serializer matching
`JSON.stringify` on the shareable-data shape (with its fixed,
insertion-order keys), UTF-8 encode/decode on bytes, and base64
(`btoa`/`atob`) with the padding strip/re-add of the source. -/

/-- The opening brace character. -/
def lbrace : Char := '\x7b'

/-- The closing brace character. -/
def rbrace : Char := '\x7d'

/-- Lowercase hex digit, as `JSON.stringify` emits in `\u00xx` escapes. -/
def hexDigitCharLower (n : Nat) : Char :=
  if n < 10 then Char.ofNat (48 + n) else Char.ofNat (87 + n)

/-- Escape of one character inside a JSON string literal, following
`JSON.stringify`: quote, backslash, the named control escapes, `\u00xx`
for the remaining control characters, everything else verbatim. -/
def escChar (c : Char) : List Char :=
  if c = '"' then ['\\', '"']
  else if c = '\\' then ['\\', '\\']
  else if c.toNat = 8 then ['\\', 'b']
  else if c.toNat = 9 then ['\\', 't']
  else if c.toNat = 10 then ['\\', 'n']
  else if c.toNat = 12 then ['\\', 'f']
  else if c.toNat = 13 then ['\\', 'r']
  else if c.toNat < 32 then
    ['\\', 'u', '0', '0', hexDigitCharLower (c.toNat / 16), hexDigitCharLower (c.toNat % 16)]
  else [c]

/-- A JSON string literal for `s`, delimiters included. -/
def serJString (s : String) : List Char :=
  '"' :: (s.data.map escChar).flatten ++ ['"']

/-- Body scanner of a JSON string literal: reads until the closing
quote, decoding escapes (`JSON.parse` semantics on this fragment). -/
def parseJStringAux : List Char → List Char → Option (String × List Char)
  | _, [] => none
  | acc, c :: rest =>
    if c = '"' then some (String.mk acc.reverse, rest)
    else if c = '\\' then
      match rest with
      | [] => none
      | e :: rest2 =>
        if e = '"' then parseJStringAux ('"' :: acc) rest2
        else if e = '\\' then parseJStringAux ('\\' :: acc) rest2
        else if e = '/' then parseJStringAux ('/' :: acc) rest2
        else if e = 'b' then parseJStringAux (Char.ofNat 8 :: acc) rest2
        else if e = 't' then parseJStringAux (Char.ofNat 9 :: acc) rest2
        else if e = 'n' then parseJStringAux (Char.ofNat 10 :: acc) rest2
        else if e = 'f' then parseJStringAux (Char.ofNat 12 :: acc) rest2
        else if e = 'r' then parseJStringAux (Char.ofNat 13 :: acc) rest2
        else if e = 'u' then
          match rest2 with
          | h1 :: h2 :: h3 :: h4 :: rest3 =>
            if isHexDigitChar h1 && isHexDigitChar h2 && isHexDigitChar h3 && isHexDigitChar h4 then
              parseJStringAux
                (Char.ofNat (hexDigitVal h1 * 4096 + hexDigitVal h2 * 256 +
                  hexDigitVal h3 * 16 + hexDigitVal h4) :: acc) rest3
            else none
          | _ => none
        else none
    else parseJStringAux (c :: acc) rest

/-- Parse a JSON string literal at the head of the input. -/
def parseJString : List Char → Option (String × List Char)
  | '"' :: rest => parseJStringAux [] rest
  | _ => none

/-- Decimal digit character. -/
def digitChar (n : Nat) : Char := Char.ofNat (48 + n)

/-- Decimal digits of a natural number, most significant first. -/
def natDigits (n : Nat) : List Char :=
  if _h : n < 10 then [digitChar n]
  else natDigits (n / 10) ++ [digitChar (n % 10)]
  termination_by n
  decreasing_by exact Nat.div_lt_self (by omega) (by omega)

/-- Integer literal as `JSON.stringify` emits it. -/
def serInt (i : Int) : List Char :=
  if i < 0 then '-' :: natDigits i.natAbs else natDigits i.toNat

/-- Decimal digit test. -/
def isDigitChar (c : Char) : Bool := decide ('0' ≤ c) && decide (c ≤ '9')

/-- Value of a digit string, most significant first. -/
def digitsToNat (ds : List Char) : Nat :=
  ds.foldl (fun acc c => acc * 10 + (c.toNat - 48)) 0

/-- Parse an integer literal (optional sign, maximal digit run). -/
def parseJInt (cs : List Char) : Option (Int × List Char) :=
  match cs with
  | [] => none
  | c :: rest =>
    if c = '-' then
      let ds := rest.takeWhile isDigitChar
      if ds.isEmpty then none
      else some (-(digitsToNat ds : Int), rest.dropWhile isDigitChar)
    else
      let ds := (c :: rest).takeWhile isDigitChar
      if ds.isEmpty then none
      else some ((digitsToNat ds : Int), (c :: rest).dropWhile isDigitChar)

/-- Comma-separated integer literals. -/
def serIntsSep : List Int → List Char
  | [] => []
  | [i] => serInt i
  | i :: rest => serInt i ++ ',' :: serIntsSep rest

/-- A JSON array of integers. -/
def serIntList (l : List Int) : List Char := '[' :: serIntsSep l ++ [']']

/-- Element loop of a nonempty integer array: one integer, then a comma
(continue) or the closing bracket (stop). -/
def parseIntsAux : Nat → List Char → Option (List Int × List Char)
  | 0, _ => none
  | fuel + 1, cs =>
    match parseJInt cs with
    | none => none
    | some (i, rest) =>
      match rest with
      | [] => none
      | c :: rest2 =>
        if c = ',' then
          match parseIntsAux fuel rest2 with
          | some (l, rest3) => some (i :: l, rest3)
          | none => none
        else if c = ']' then some ([i], rest2)
        else none

/-- Parse a JSON array of integers at the head of the input. -/
def parseIntList (cs : List Char) : Option (List Int × List Char) :=
  match cs with
  | [] => none
  | c :: rest =>
    if c = '[' then
      match rest with
      | [] => none
      | r :: rest2 =>
        if r = ']' then some ([], rest2)
        else parseIntsAux (r :: rest2).length (r :: rest2)
    else none

/-- JSON boolean literal. -/
def serBool (b : Bool) : List Char := if b then "true".data else "false".data

/-- Consume an expected literal character sequence. -/
def expectLit (lit cs : List Char) : Option (List Char) :=
  if lit.isPrefixOf cs then some (cs.drop lit.length) else none

/-- Parse a JSON boolean literal at the head of the input. -/
def parseBool (cs : List Char) : Option (Bool × List Char) :=
  match expectLit "true".data cs with
  | some rest => some (true, rest)
  | none =>
    match expectLit "false".data cs with
    | some rest => some (false, rest)
    | none => none

/-- Serialized object key: `"k":`. -/
def serKey (k : String) : List Char := serJString k ++ [':']

/-- One palette entry as `JSON.stringify` emits it (keys in insertion
order: `hex`, `name`, then `optional` when present). -/
def serColorEntry (c : ColorEntry) : List Char :=
  (lbrace :: serKey "hex") ++ serJString c.hex
  ++ (',' :: serKey "name") ++ serJString c.name
  ++ (match c.optional with
      | some b => (',' :: serKey "optional") ++ serBool b
      | none => [])
  ++ [rbrace]

/-- A nullable palette entry. -/
def serOptColorEntry : Option ColorEntry → List Char
  | none => "null".data
  | some c => serColorEntry c

/-- One typography entry as `JSON.stringify` emits it (keys `family`,
`source`, `weights`, `usage`, then `optional` when present). -/
def serFontEntry (f : FontEntry) : List Char :=
  (lbrace :: serKey "family") ++ serJString f.family
  ++ (',' :: serKey "source") ++ serJString f.source
  ++ (',' :: serKey "weights") ++ serIntList f.weights
  ++ (',' :: serKey "usage") ++ serJString f.usage
  ++ (match f.optional with
      | some b => (',' :: serKey "optional") ++ serBool b
      | none => [])
  ++ [rbrace]

/-- A nullable typography entry. -/
def serOptFontEntry : Option FontEntry → List Char
  | none => "null".data
  | some f => serFontEntry f

/-- The shareable subset of the brandbook (`getShareableData()`):
version, meta name and generator, colors, typography; no logo. -/
structure ShareData where
  version : String
  metaName : String
  metaGenerator : String
  colors : Colors
  typography : Typography
  deriving Repr, DecidableEq

/-- Embedding of `getShareableData()`. -/
def getShareableData (bb : Brandbook) : ShareData :=
  { version := bb.version
  , metaName := bb.meta.name
  , metaGenerator := bb.meta.generator
  , colors := bb.colors
  , typography := bb.typography }

/-- The literal opening the `"meta"` section: `,"meta":{"name":`. -/
def metaSectionLit : List Char :=
  (',' :: serKey "meta") ++ [lbrace] ++ serKey "name"

/-- The literal opening the `"colors"` section (with the brace closing
the `meta` object): `},"colors":{"primary":`. -/
def colorsSectionLit : List Char :=
  (rbrace :: ',' :: serKey "colors") ++ [lbrace] ++ serKey "primary"

/-- The literal opening the `"typography"` section (with the brace
closing the `colors` object): `},"typography":{"primary":`. -/
def typographySectionLit : List Char :=
  (rbrace :: ',' :: serKey "typography") ++ [lbrace] ++ serKey "primary"

/-- The `"colors"` section of the stringified payload. -/
def serShareColors (c : Colors) : List Char :=
  colorsSectionLit
  ++ serColorEntry c.primary
  ++ (',' :: serKey "secondary") ++ serColorEntry c.secondary
  ++ (',' :: serKey "accent") ++ serOptColorEntry c.accent

/-- The `"typography"` section of the stringified payload. -/
def serShareTypography (t : Typography) : List Char :=
  typographySectionLit
  ++ serFontEntry t.primary
  ++ (',' :: serKey "secondary") ++ serOptFontEntry t.secondary

/-- The full `JSON.stringify(getShareableData())` text. -/
def serShareData (sd : ShareData) : List Char :=
  (lbrace :: serKey "version") ++ serJString sd.version
  ++ metaSectionLit ++ serJString sd.metaName
  ++ (',' :: serKey "generator") ++ serJString sd.metaGenerator
  ++ serShareColors sd.colors
  ++ serShareTypography sd.typography
  ++ [rbrace, rbrace]

/-- Parse one palette entry object. -/
def parseColorEntry (cs : List Char) : Option (ColorEntry × List Char) := do
  let r1 ← expectLit (lbrace :: serKey "hex") cs
  let (hex, r2) ← parseJString r1
  let r3 ← expectLit (',' :: serKey "name") r2
  let (name, r4) ← parseJString r3
  match expectLit [rbrace] r4 with
  | some r5 => pure ({ hex := hex, name := name, optional := none }, r5)
  | none => do
    let r5 ← expectLit (',' :: serKey "optional") r4
    let (b, r6) ← parseBool r5
    let r7 ← expectLit [rbrace] r6
    pure ({ hex := hex, name := name, optional := some b }, r7)

/-- Parse a nullable palette entry. -/
def parseOptColorEntry (cs : List Char) : Option (Option ColorEntry × List Char) :=
  match expectLit "null".data cs with
  | some rest => some (none, rest)
  | none => (parseColorEntry cs).map fun p => (some p.1, p.2)

/-- Parse one typography entry object. -/
def parseFontEntry (cs : List Char) : Option (FontEntry × List Char) := do
  let r1 ← expectLit (lbrace :: serKey "family") cs
  let (family, r2) ← parseJString r1
  let r3 ← expectLit (',' :: serKey "source") r2
  let (source, r4) ← parseJString r3
  let r5 ← expectLit (',' :: serKey "weights") r4
  let (weights, r6) ← parseIntList r5
  let r7 ← expectLit (',' :: serKey "usage") r6
  let (usage, r8) ← parseJString r7
  match expectLit [rbrace] r8 with
  | some r9 =>
    pure ({ family := family, source := source, weights := weights
          , usage := usage, optional := none }, r9)
  | none => do
    let r9 ← expectLit (',' :: serKey "optional") r8
    let (b, r10) ← parseBool r9
    let r11 ← expectLit [rbrace] r10
    pure ({ family := family, source := source, weights := weights
          , usage := usage, optional := some b }, r11)

/-- Parse a nullable typography entry. -/
def parseOptFontEntry (cs : List Char) : Option (Option FontEntry × List Char) :=
  match expectLit "null".data cs with
  | some rest => some (none, rest)
  | none => (parseFontEntry cs).map fun p => (some p.1, p.2)

/-- Parse the `"colors"` section (preceded by the closing brace of the
`meta` object). -/
def parseShareColors (cs : List Char) : Option (Colors × List Char) := do
  let r7 ← expectLit colorsSectionLit cs
  let (cp, r8) ← parseColorEntry r7
  let r9 ← expectLit (',' :: serKey "secondary") r8
  let (cs2, r10) ← parseColorEntry r9
  let r11 ← expectLit (',' :: serKey "accent") r10
  let (ca, r12) ← parseOptColorEntry r11
  pure ({ primary := cp, secondary := cs2, accent := ca }, r12)

/-- Parse the `"typography"` section (preceded by the closing brace of
the `colors` object). -/
def parseShareTypography (cs : List Char) : Option (Typography × List Char) := do
  let r13 ← expectLit typographySectionLit cs
  let (tp, r14) ← parseFontEntry r13
  let r15 ← expectLit (',' :: serKey "secondary") r14
  let (ts, r16) ← parseOptFontEntry r15
  pure ({ primary := tp, secondary := ts }, r16)

/-- Parse the shareable-data JSON text: `JSON.parse` restricted to the
shape `generateShareUrl` produces, together with the structural
validation of `importFromUrlData` (the payload has `version`, `meta`,
`colors` and `typography`). -/
def parseShareData (cs : List Char) : Option (ShareData × List Char) := do
  let r1 ← expectLit (lbrace :: serKey "version") cs
  let (version, r2) ← parseJString r1
  let r3 ← expectLit metaSectionLit r2
  let (mname, r4) ← parseJString r3
  let r5 ← expectLit (',' :: serKey "generator") r4
  let (mgen, r6) ← parseJString r5
  let (colors, r12) ← parseShareColors r6
  let (typ, r16) ← parseShareTypography r12
  let r17 ← expectLit [rbrace, rbrace] r16
  pure
    ({ version := version, metaName := mname, metaGenerator := mgen
     , colors := colors, typography := typ }, r17)

/-! ### UTF-8 and base64 layers -/

/-- UTF-8 bytes of one code point. -/
def utf8EncodeChar (n : Nat) : List Nat :=
  if n < 128 then [n]
  else if n < 2048 then [192 + n / 64, 128 + n % 64]
  else if n < 65536 then [224 + n / 4096, 128 + (n / 64) % 64, 128 + n % 64]
  else [240 + n / 262144, 128 + (n / 4096) % 64, 128 + (n / 64) % 64, 128 + n % 64]

/-- UTF-8 bytes of a string (`unescape(encodeURIComponent(s))`). -/
def utf8Encode (cs : List Char) : List Nat :=
  (cs.map fun c => utf8EncodeChar c.toNat).flatten

/-- Decoding of a single UTF-8 sequence at the head of a byte list:
the decoded code point and the remaining bytes, `none` on a malformed
sequence (which in the source throws `URIError` and is caught). -/
def utf8DecodeOne : List Nat → Option (Nat × List Nat)
  | [] => none
  | b1 :: rest =>
    if b1 < 128 then some (b1, rest)
    else if b1 < 192 then none
    else if b1 < 224 then
      match rest with
      | b2 :: rest2 =>
        if 128 ≤ b2 && b2 < 192 then
          some ((b1 - 192) * 64 + (b2 - 128), rest2)
        else none
      | [] => none
    else if b1 < 240 then
      match rest with
      | b2 :: b3 :: rest2 =>
        if (128 ≤ b2 && b2 < 192) && (128 ≤ b3 && b3 < 192) then
          some ((b1 - 224) * 4096 + (b2 - 128) * 64 + (b3 - 128), rest2)
        else none
      | _ => none
    else if b1 < 248 then
      match rest with
      | b2 :: b3 :: b4 :: rest2 =>
        if ((128 ≤ b2 && b2 < 192) && (128 ≤ b3 && b3 < 192)) && (128 ≤ b4 && b4 < 192) then
          some ((b1 - 240) * 262144 + (b2 - 128) * 4096 + (b3 - 128) * 64 + (b4 - 128), rest2)
        else none
      | _ => none
    else none

/-- Iterated UTF-8 decoding; every decoded sequence consumes at least
one byte, so the byte count bounds the iteration. -/
def utf8DecodeAux : Nat → List Nat → Option (List Char)
  | _, [] => some []
  | 0, _ :: _ => none
  | fuel + 1, b1 :: bs =>
    match utf8DecodeOne (b1 :: bs) with
    | none => none
    | some (n, rest) => (utf8DecodeAux fuel rest).map fun cs => Char.ofNat n :: cs

/-- UTF-8 decoding of a byte list back to characters
(`decodeURIComponent(escape(b))`); `none` on a malformed sequence, which
in the source throws `URIError` and is caught. -/
def utf8Decode (bs : List Nat) : Option (List Char) :=
  utf8DecodeAux bs.length bs

/-- The base64 alphabet character for a 6-bit value. -/
def b64Char (n : Nat) : Char :=
  "ABCDEFGHIJKLMNOPQRSTUVWXYZabcdefghijklmnopqrstuvwxyz0123456789+/".data.getD n 'A'

/-- The 6-bit value of a base64 alphabet character. -/
def b64Val (c : Char) : Option Nat :=
  if decide ('A' ≤ c) && decide (c ≤ 'Z') then some (c.toNat - 65)
  else if decide ('a' ≤ c) && decide (c ≤ 'z') then some (c.toNat - 97 + 26)
  else if decide ('0' ≤ c) && decide (c ≤ '9') then some (c.toNat - 48 + 52)
  else if c = '+' then some 62
  else if c = '/' then some 63
  else none

/-- `btoa`: base64 text (with padding) of a byte list. -/
def btoaChars : List Nat → List Char
  | [] => []
  | [b1] => [b64Char (b1 / 4), b64Char (b1 % 4 * 16), '=', '=']
  | [b1, b2] => [b64Char (b1 / 4), b64Char (b1 % 4 * 16 + b2 / 16), b64Char (b2 % 16 * 4), '=']
  | b1 :: b2 :: b3 :: rest =>
    b64Char (b1 / 4) :: b64Char (b1 % 4 * 16 + b2 / 16) ::
      b64Char (b2 % 16 * 4 + b3 / 64) :: b64Char (b3 % 64) :: btoaChars rest

/-- `atob`: bytes of a padded base64 text, `none` when malformed (the
source catches the resulting exception); padding is legal only on the
final quantum. -/
def atobChars : List Char → Option (List Nat)
  | [] => some []
  | c1 :: c2 :: c3 :: c4 :: rest =>
    if c3 = '=' then
      if c4 = '=' then
        if rest = [] then do
          let v1 ← b64Val c1
          let v2 ← b64Val c2
          pure [v1 * 4 + v2 / 16]
        else none
      else none
    else if c4 = '=' then
      if rest = [] then do
        let v1 ← b64Val c1
        let v2 ← b64Val c2
        let v3 ← b64Val c3
        pure [v1 * 4 + v2 / 16, v2 % 16 * 16 + v3 / 4]
      else none
    else do
      let v1 ← b64Val c1
      let v2 ← b64Val c2
      let v3 ← b64Val c3
      let v4 ← b64Val c4
      let bytes ← atobChars rest
      pure ((v1 * 4 + v2 / 16) :: (v2 % 16 * 16 + v3 / 4) :: (v3 % 4 * 64 + v4) :: bytes)
  | _ => none

/-- Strip every trailing `=` (`encoded.replace(/=+$/, '')`). -/
def stripTrailingEq (cs : List Char) : List Char :=
  (cs.reverse.dropWhile fun c => c = '=').reverse

/-- Re-add padding (`'='.repeat((4 - encodedData.length % 4) % 4)`). -/
def padTo4 (cs : List Char) : List Char :=
  cs ++ List.replicate ((4 - cs.length % 4) % 4) '='

/-- The value of the `data` query parameter `generateShareUrl` emits. -/
def shareEncoded (bb : Brandbook) : List Char :=
  stripTrailingEq (btoaChars (utf8Encode (serShareData (getShareableData bb))))

/-- Embedding of `generateShareUrl(baseUrl)`. -/
def generateShareUrl (baseUrl : String) (bb : Brandbook) : String :=
  baseUrl ++ "?data=" ++ String.mk (shareEncoded bb)

/-- Embedding of `importFromUrlData(encodedData)`: re-pad, `atob`,
UTF-8 decode, `JSON.parse` + structure validation (`version` must be
truthy), then merge over `createEmptyBrandbook()` keeping the logo
empty. Returns `none` (and leaves the store untouched) on any failure. -/
def importFromUrlDataFn (now : String) (encodedData : List Char) : Option Brandbook :=
  match atobChars (padTo4 encodedData) with
  | none => none
  | some bytes =>
    match utf8Decode bytes with
    | none => none
    | some chars =>
      match parseShareData chars with
      | none => none
      | some (sd, rest) =>
        if rest.isEmpty then
          if sd.version = "" then none
          else
            let deflt := createEmptyBrandbook now
            some
              { version := sd.version
              , meta := { name := sd.metaName, created := deflt.meta.created
                        , generator := sd.metaGenerator }
              , colors := sd.colors
              , typography := sd.typography
              , logo := deflt.logo }
        else none

/-! ## Reachable states of the data store -/

/-- States reachable from the initial state through the exported
mutators, with import payloads restricted by `P` (instantiate `P` with
the trivially true predicate for the unrestricted store). -/
inductive ReachableFrom (P : ImportData → Prop) : Brandbook → Prop where
  | init (now : String) : ReachableFrom P (createEmptyBrandbook now)
  | brandName {bb} (name : String) :
      ReachableFrom P bb → ReachableFrom P (setBrandName bb name)
  | color {bb} (t : ColorType) (hex name : String) :
      ReachableFrom P bb → ReachableFrom P (setColor bb t hex name)
  | typo {bb} (t : FontType) (family usage : String) :
      ReachableFrom P bb → ReachableFrom P (setTypography bb t family usage)
  | logo {bb} (isSvg : Bool) (dataUrl : String) :
      ReachableFrom P bb → ReachableFrom P (setLogo bb isSvg dataUrl)
  | logoCleared {bb} :
      ReachableFrom P bb → ReachableFrom P (clearLogo bb)
  | resetTo (now : String) {bb} :
      ReachableFrom P bb → ReachableFrom P (createEmptyBrandbook now)
  | fileImport {bb bb2} (now : String) (d : ImportData) :
      ReachableFrom P bb → P d → importFromFile now d = some bb2 → ReachableFrom P bb2
  | urlImport {bb bb2} (now : String) (enc : List Char) :
      ReachableFrom P bb → importFromUrlDataFn now enc = some bb2 → ReachableFrom P bb2

/-- The unrestricted reachable states. -/
def Reachable (bb : Brandbook) : Prop := ReachableFrom (fun _ => True) bb

/-- The claimed invariant: at most one logo representation is non-null. -/
def LogoAtMostOne (bb : Brandbook) : Prop :=
  bb.logo.svg = none ∨ bb.logo.png = none

/-- An import payload whose `logo` object itself carries at most one
non-null representation. -/
def logoImportOk (d : ImportData) : Prop :=
  match d.logo with
  | some pl => pl.svg.getD none = none ∨ pl.png.getD none = none
  | none => True

/-! ## Auxiliary observables and concrete environments -/

/-- Whether the capture loop attempts a capture for this mockup (the
source node was found). -/
def attempted (env : GenEnv) (c : MockupConfig) : Bool :=
  match env.mockupOutcome c.id with
  | .noElement => false
  | _ => true

/-- A trace consisting of an uninterrupted begin/finish pair per
capture: no capture begins before the previous one finished. -/
inductive SeqTrace : List CapEvent → Prop where
  | nil : SeqTrace []
  | pair (id : String) (rest : List CapEvent) :
      SeqTrace rest → SeqTrace (CapEvent.begun id :: CapEvent.finished id :: rest)

/-- The mockup id of a begin event. -/
def beginIdOf : CapEvent → Option String
  | .begun id => some id
  | .finished _ => none

/-- The concrete malicious import payload: structurally valid, with a
logo object carrying both an SVG and a PNG data URL. -/
def badLogoImport : ImportData :=
  { version := some "1.0"
  , meta := some { name := none, created := none, generator := none }
  , colors := some { primary := none, secondary := none, accent := none }
  , typography := some { primary := none, secondary := none }
  , logo := some
      { svg := some (some "data:image/svg+xml;base64,AAA")
      , png := some (some "data:image/png;base64,BBB")
      , usage := none } }

/-- The store state `importFromFile` produces from `badLogoImport`. -/
def badLogoState : Brandbook :=
  { createEmptyBrandbook "t0" with logo :=
      { svg := some "data:image/svg+xml;base64,AAA"
      , png := some "data:image/png;base64,BBB"
      , usage := "Primary logo" } }

/-- A concrete generation environment: logo set but its image fails to
load; every mockup captures fine. -/
def envPreloadFail : GenEnv :=
  { brandbook := { createEmptyBrandbook "t" with logo :=
      { svg := some "data:image/svg+xml;base64,x", png := none, usage := "Primary logo" } }
  , logoPreload := none
  , mockupOutcome := fun _ => MockupOutcome.ok "img" 100 50
  , qrOk := true }

/-- A concrete environment with no logo and all captures succeeding. -/
def envNoLogoC5 : GenEnv :=
  { brandbook := createEmptyBrandbook "t"
  , logoPreload := none
  , mockupOutcome := fun _ => MockupOutcome.ok "img" 100 50
  , qrOk := true }

/-- The same environment with a PNG logo set and loading fine. -/
def envLogoC5 : GenEnv :=
  { envNoLogoC5 with
      brandbook := { createEmptyBrandbook "t" with logo :=
        { svg := none, png := some "data:image/png;base64,x", usage := "Primary logo" } }
    , logoPreload := some (64, 64) }

/-- A concrete environment where exactly the envelope mockup's source
node is missing and everything else succeeds. -/
def envOneFail : GenEnv :=
  { brandbook := createEmptyBrandbook "t"
  , logoPreload := none
  , mockupOutcome := fun id =>
      if id = "mockup-envelope" then MockupOutcome.noElement
      else MockupOutcome.ok "img" 100 50
  , qrOk := true }

/-! # Theorems -/

/-! ## C1: the fit calculator -/

/-- C1: for all positive `sourceWidth, sourceHeight, maxWidth,
maxHeight`, the pair returned by `calculateFitDimensions` keeps both
bounds and preserves the aspect ratio `sourceWidth / sourceHeight`
exactly (the `ℚ` embedding of the arithmetic, so "within floating-point
epsilon" holds with epsilon zero). -/
theorem calculateFitDimensions_fits (sw sh mw mh : ℚ)
    (hsw : 0 < sw) (hsh : 0 < sh) (hmw : 0 < mw) (hmh : 0 < mh) :
    (calculateFitDimensions sw sh mw mh).1 ≤ mw ∧
    (calculateFitDimensions sw sh mw mh).2 ≤ mh ∧
    (calculateFitDimensions sw sh mw mh).1 / (calculateFitDimensions sw sh mw mh).2
      = sw / sh := by
  have hsh' : sh ≠ 0 := hsh.ne'
  have hsw' : sw ≠ 0 := hsw.ne'
  have hmh' : mh ≠ 0 := hmh.ne'
  have hmw' : mw ≠ 0 := hmw.ne'
  simp only [calculateFitDimensions]
  split_ifs with hgt
  · refine ⟨?_, le_refl mh, ?_⟩
    · rw [div_mul_eq_mul_div, div_le_iff hsh]
      rw [div_mul_eq_mul_div] at hgt
      have h2 : mh * sw < sh * mw := (lt_div_iff hsw).mp hgt
      nlinarith
    · rw [mul_div_assoc, div_self hmh', mul_one]
  · push_neg at hgt
    refine ⟨le_refl mw, hgt, ?_⟩
    have hpos : 0 < sh / sw * mw := by positivity
    rw [div_eq_div_iff hpos.ne' hsh']
    field_simp
    ring

/-- Witness for C1 at the concrete input `(100, 50, 80, 60)`. -/
theorem calculateFitDimensions_fits_witness :
    ((0 : ℚ) < 100 ∧ (0 : ℚ) < 50 ∧ (0 : ℚ) < 80 ∧ (0 : ℚ) < 60) ∧
    ((calculateFitDimensions 100 50 80 60).1 ≤ 80 ∧
     (calculateFitDimensions 100 50 80 60).2 ≤ 60 ∧
     (calculateFitDimensions 100 50 80 60).1 / (calculateFitDimensions 100 50 80 60).2
       = 100 / 50) :=
  ⟨⟨by norm_num, by norm_num, by norm_num, by norm_num⟩,
   calculateFitDimensions_fits 100 50 80 60
     (by norm_num) (by norm_num) (by norm_num) (by norm_num)⟩

/-! ## C8: title-page gradient midpoint -/

/-- Auxiliary: characterization of `Math.round` through its bounds. -/
theorem jsRound_eq (q : ℚ) (n : ℤ) (h1 : (n : ℚ) ≤ q + 1 / 2) (h2 : q + 1 / 2 < n + 1) :
    jsRound q = n := by
  rw [jsRound]
  exact Int.floor_eq_iff.mpr ⟨h1, h2⟩

/-- C8: in the title-page gradient bar (50 discrete interpolation steps
from primary to secondary), the fill color at the midpoint step
(`i = 25`, ratio `1/2`) between primary `#FF5733` and secondary
`#2C3E50` is the channel-wise average of the two colors, each channel
rounded as `Math.round(c1 + (c2 - c1) * 0.5)`; concretely
`(150, 75, 66)`. -/
theorem titleGradient_midpoint_eq_average (bb : Brandbook)
    (hp : bb.colors.primary.hex = "#FF5733")
    (hs : bb.colors.secondary.hex = "#2C3E50") :
    titleGradientColor bb 25 =
      (midpointChannel 255 44, midpointChannel 87 62, midpointChannel 51 80) ∧
    midpointChannel 255 44 = jsRound (((255 : ℚ) + 44) / 2) ∧
    midpointChannel 87 62 = jsRound (((87 : ℚ) + 62) / 2) ∧
    midpointChannel 51 80 = jsRound (((51 : ℚ) + 80) / 2) ∧
    titleGradientColor bb 25 = (150, 75, 66) := by
  have hrgb1 : hexToRgb "#FF5733" = { r := 255, g := 87, b := 51 } := by decide
  have hrgb2 : hexToRgb "#2C3E50" = { r := 44, g := 62, b := 80 } := by decide
  have hmc1 : midpointChannel 255 44 = 150 := by
    unfold midpointChannel
    apply jsRound_eq <;> norm_num
  have hmc2 : midpointChannel 87 62 = 75 := by
    unfold midpointChannel
    apply jsRound_eq <;> norm_num
  have hmc3 : midpointChannel 51 80 = 66 := by
    unfold midpointChannel
    apply jsRound_eq <;> norm_num
  have havg1 : jsRound (((255 : ℚ) + 44) / 2) = 150 := by
    apply jsRound_eq <;> norm_num
  have havg2 : jsRound (((87 : ℚ) + 62) / 2) = 75 := by
    apply jsRound_eq <;> norm_num
  have havg3 : jsRound (((51 : ℚ) + 80) / 2) = 66 := by
    apply jsRound_eq <;> norm_num
  have hgrad : titleGradientColor bb 25 = (150, 75, 66) := by
    simp only [titleGradientColor, hp, hs, hrgb1, hrgb2, gradientSteps]
    simp only [Prod.mk.injEq]
    refine ⟨?_, ?_, ?_⟩ <;> (apply jsRound_eq <;> push_cast <;> norm_num)
  exact ⟨by rw [hgrad, hmc1, hmc2, hmc3], by rw [hmc1, havg1], by rw [hmc2, havg2],
    by rw [hmc3, havg3], hgrad⟩

/-- Witness for C8 at the default brandbook (whose palette is exactly
the claim's primary and secondary). -/
theorem titleGradient_midpoint_eq_average_witness :
    (createEmptyBrandbook "t").colors.primary.hex = "#FF5733" ∧
    (createEmptyBrandbook "t").colors.secondary.hex = "#2C3E50" ∧
    titleGradientColor (createEmptyBrandbook "t") 25 = (150, 75, 66) :=
  ⟨rfl, rfl, (titleGradient_midpoint_eq_average (createEmptyBrandbook "t") rfl rfl).2.2.2.2⟩

/-! ## C10: totality and exactness of hexToRgb -/

/-- Auxiliary: a character list not starting with `#` is kept whole. -/
theorem hexBody_of_no_hash (cs : List Char) (h : ∀ c, cs.head? = some c → c ≠ '#') :
    hexBody cs = cs := by
  match cs with
  | [] => rfl
  | c :: rest =>
    have hc : c ≠ '#' := h c rfl
    unfold hexBody
    split
    · rename_i heq
      injection heq with h1 h2
      exact absurd h1 hc
    · rfl

/-- Auxiliary: every input either is its own hex body or is the hex
body prefixed with `#`. -/
theorem hexBody_cases (cs : List Char) :
    cs = hexBody cs ∨ cs = '#' :: hexBody cs := by
  match cs with
  | [] => exact Or.inl rfl
  | c :: rest =>
    by_cases hc : c = '#'
    · subst hc
      exact Or.inr rfl
    · left
      rw [hexBody_of_no_hash]
      intro c2 h2
      injection h2 with h2
      subst h2
      exact hc

/-- C10: `hexToRgb` is total: on any string of exactly six hex digits,
optionally prefixed with `#`, it returns the exact parsed channel
values, and on every other string it returns black `(0, 0, 0)`; no
input is rejected. -/
theorem hexToRgb_total (s : String) :
    (∀ ds : List Char, ds.length = 6 → (∀ c ∈ ds, isHexDigitChar c = true) →
        (s.data = ds ∨ s.data = '#' :: ds) → hexToRgb s = rgbOfDigits ds)
    ∧ ((∀ ds : List Char, ds.length = 6 → (∀ c ∈ ds, isHexDigitChar c = true) →
        s.data ≠ ds ∧ s.data ≠ '#' :: ds) → hexToRgb s = { r := 0, g := 0, b := 0 }) := by
  constructor
  · intro ds h6 hhex hcase
    have hbody : hexBody s.data = ds := by
      rcases hcase with h | h
      · rw [h]
        apply hexBody_of_no_hash
        intro c hc hc'
        subst hc'
        match ds, h6, hc with
        | d :: rest, _, hc =>
          have hd : isHexDigitChar d = true := hhex d (by simp)
          have hdh : d = '#' := by injection hc
          subst hdh
          exact absurd hd (by decide)
      · rw [h]
        rfl
    have hmatch : hexMatch s.data = some ds := by
      simp only [hexMatch, hbody]
      simp [h6, List.all_eq_true.mpr hhex]
    simp only [hexToRgb]
    rw [hmatch]
  · intro hno
    cases hmatch : hexMatch s.data with
    | none =>
      simp only [hexToRgb]
      rw [hmatch]
    | some ds =>
      exfalso
      simp only [hexMatch] at hmatch
      split_ifs at hmatch with hcond
      · injection hmatch with hmatch
        subst hmatch
        rw [Bool.and_eq_true, decide_eq_true_eq] at hcond
        obtain ⟨h6, hall⟩ := hcond
        have hhex := List.all_eq_true.mp hall
        have hcontra := hno (hexBody s.data) h6 (fun c hc => hhex c hc)
        rcases hexBody_cases s.data with h | h
        · exact hcontra.1 h
        · exact hcontra.2 h

/-- Witness for C10: a matching input parses to its exact channels, a
malformed input yields black. -/
theorem hexToRgb_total_witness :
    hexToRgb "#1A2b3C" = { r := 26, g := 43, b := 60 } ∧
    hexToRgb "nonsense" = { r := 0, g := 0, b := 0 } := by
  constructor
  · have h := (hexToRgb_total "#1A2b3C").1 ['1', 'A', '2', 'b', '3', 'C']
      (by decide) (by decide) (by decide)
    rw [h]
    decide
  · apply (hexToRgb_total "nonsense").2
    intro ds h6 hhex
    constructor
    · intro heq
      have h8 : ("nonsense".data).length = 8 := by decide
      rw [heq, h6] at h8
      omega
    · intro heq
      have h8 : ("nonsense".data).length = 8 := by decide
      rw [heq] at h8
      simp only [List.length_cons, h6] at h8
      omega

/-! ## C6: the at-most-one-logo invariant -/

/-- Auxiliary: `setColor` never touches the logo. -/
theorem setColor_logo (bb : Brandbook) (t : ColorType) (hex name : String) :
    (setColor bb t hex name).logo = bb.logo := by
  cases t
  · rfl
  · rfl
  · show (match bb.colors.accent with
      | some a => { bb with colors := { bb.colors with
          accent := some { a with hex := hex, name := name } } }
      | none => bb).logo = bb.logo
    cases bb.colors.accent <;> rfl

/-- Auxiliary: `setTypography` never touches the logo. -/
theorem setTypography_logo (bb : Brandbook) (t : FontType) (family usage : String) :
    (setTypography bb t family usage).logo = bb.logo := by
  cases t
  · rfl
  · show (match bb.typography.secondary with
      | some f => { bb with typography := { bb.typography with
          secondary := some { f with family := family, usage := usage } } }
      | none => bb).logo = bb.logo
    cases bb.typography.secondary <;> rfl

/-- Auxiliary: a successful URL import has an empty logo and a
non-empty version. -/
theorem importFromUrlDataFn_inv {now : String} {enc : List Char} {bb2 : Brandbook}
    (h2 : importFromUrlDataFn now enc = some bb2) :
    bb2.logo.svg = none ∧ bb2.logo.png = none ∧ bb2.version ≠ "" := by
  unfold importFromUrlDataFn at h2
  cases hA : atobChars (padTo4 enc) with
  | none =>
    simp only [hA] at h2
    exact Option.noConfusion h2
  | some bytes =>
    simp only [hA] at h2
    cases hB : utf8Decode bytes with
    | none =>
      simp only [hB] at h2
      exact Option.noConfusion h2
    | some chars =>
      simp only [hB] at h2
      cases hC : parseShareData chars with
      | none =>
        simp only [hC] at h2
        exact Option.noConfusion h2
      | some p =>
        obtain ⟨sd, rest⟩ := p
        simp only [hC] at h2
        split_ifs at h2 with h1 hver
        injection h2 with h2
        subst h2
        exact ⟨rfl, rfl, hver⟩

/-- C6 counterexample: importing a file whose `logo` object holds both
representations drives the store into a reachable state where
`logo.svg` and `logo.png` are simultaneously non-null, so the claimed
invariant fails. -/
theorem logo_invariant_counterexample :
    importFromFile "t0" badLogoImport = some badLogoState ∧
    Reachable badLogoState ∧
    badLogoState.logo.svg = some "data:image/svg+xml;base64,AAA" ∧
    badLogoState.logo.png = some "data:image/png;base64,BBB" := by
  have himp : importFromFile "t0" badLogoImport = some badLogoState := by decide
  exact ⟨himp,
    ReachableFrom.fileImport "t0" badLogoImport (ReachableFrom.init "x") trivial himp,
    rfl, rfl⟩

/-- C6 amended: every mutator preserves the at-most-one-logo invariant
except `importFromFile`, which preserves it exactly when the imported
file's own `logo` object carries at most one non-null representation
(the unrestricted import is the counterexample above). -/
theorem logo_invariant_amended (bb : Brandbook)
    (h : ReachableFrom logoImportOk bb) : LogoAtMostOne bb := by
  induction h with
  | init now => exact Or.inl rfl
  | brandName name hr ih => exact ih
  | color t hex name hr ih =>
    unfold LogoAtMostOne
    rw [setColor_logo]
    exact ih
  | typo t family usage hr ih =>
    unfold LogoAtMostOne
    rw [setTypography_logo]
    exact ih
  | logo isSvg dataUrl hr ih =>
    unfold LogoAtMostOne setLogo
    split_ifs
    · exact Or.inr rfl
    · exact Or.inl rfl
  | logoCleared hr ih => exact Or.inl rfl
  | resetTo now hr ih => exact Or.inl rfl
  | fileImport now d hr hP h2 ih =>
    obtain ⟨vOpt, mOpt, cOpt, tOpt, lOpt⟩ := d
    cases vOpt <;> cases mOpt <;> cases cOpt <;> cases tOpt <;>
      simp only [importFromFile] at h2 <;> try exact Option.noConfusion h2
    split_ifs at h2 with hv
    injection h2 with h2
    subst h2
    unfold LogoAtMostOne mergeLogo
    cases lOpt with
    | none => exact Or.inl rfl
    | some pl =>
      unfold logoImportOk at hP
      simp only at hP
      simp only [Option.getD_some]
      rcases hP with hP | hP
      · exact Or.inl (by simp [createEmptyBrandbook, hP])
      · exact Or.inr (by simp [createEmptyBrandbook, hP])
  | urlImport now enc hr h2 ih =>
    have := importFromUrlDataFn_inv h2
    exact Or.inl this.1

/-- Witness for C6's amended theorem at a concrete reachable state. -/
theorem logo_invariant_amended_witness :
    LogoAtMostOne (setLogo (createEmptyBrandbook "t1") true "data:image/svg+xml;base64,AAA") :=
  logo_invariant_amended _
    (ReachableFrom.logo true "data:image/svg+xml;base64,AAA" (ReachableFrom.init "t1"))

/-! ## Helper lemmas about the capture loop and the page sequence -/

/-- The capture loop is the filter-map of its per-iteration body. -/
theorem captureMockups_eq_filterMap (env : GenEnv) :
    captureMockups env = mockupConfigs.filterMap (captureOne env) := by
  have hgen : ∀ (l : List MockupConfig) (acc : List CaptureRecord),
      List.foldl
        (fun acc config =>
          match env.mockupOutcome config.id with
          | .ok d w h =>
            acc ++ [{ id := config.id, title := config.title, num := config.num
                    , imgData := d, width := w, height := h, format := "JPEG" }]
          | _ => acc)
        acc l = acc ++ l.filterMap (captureOne env) := by
    intro l
    induction l with
    | nil => intro acc; simp
    | cons c rest ih =>
      intro acc
      rw [List.foldl_cons, List.filterMap_cons]
      cases hc : env.mockupOutcome c.id with
      | ok d w h => simp only [hc, captureOne, ih, List.append_assoc, List.singleton_append]
      | noElement => simp only [hc, captureOne, ih]
      | failed => simp only [hc, captureOne, ih]
  rw [captureMockups, hgen mockupConfigs []]
  rfl

/-- One iteration produces a record exactly when the outcome is a
successful capture. -/
theorem captureOne_isSome (env : GenEnv) (c : MockupConfig) :
    (captureOne env c).isSome = (env.mockupOutcome c.id).isOk := by
  unfold captureOne MockupOutcome.isOk
  cases env.mockupOutcome c.id <;> rfl

/-- Length of a filter-map through the someness of its function. -/
theorem length_filterMap_eq {α β : Type} (f : α → Option β) (l : List α) :
    (l.filterMap f).length = (l.filter fun x => (f x).isSome).length := by
  induction l with
  | nil => rfl
  | cons x rest ih =>
    rw [List.filterMap_cons, List.filter_cons]
    cases hx : f x with
    | none => simpa [hx] using ih
    | some y => simpa [hx] using ih

/-- The id sequence of the produced capture records is the fixed mockup
order restricted to the successful captures. -/
theorem captureMockups_ids (env : GenEnv) :
    (captureMockups env).map (fun c => c.id) =
      (mockupConfigs.filter fun c => (env.mockupOutcome c.id).isOk).map (fun c => c.id) := by
  rw [captureMockups_eq_filterMap]
  have : ∀ l : List MockupConfig,
      (l.filterMap (captureOne env)).map (fun c => c.id) =
        (l.filter fun c => (env.mockupOutcome c.id).isOk).map (fun c => c.id) := by
    intro l
    induction l with
    | nil => rfl
    | cons c rest ih =>
      rw [List.filterMap_cons, List.filter_cons]
      cases hc : env.mockupOutcome c.id with
      | ok d w h => simp only [captureOne, hc, List.map_cons, ih, MockupOutcome.isOk, if_pos]
      | noElement => simpa [captureOne, hc, MockupOutcome.isOk] using ih
      | failed => simpa [captureOne, hc, MockupOutcome.isOk] using ih
  exact this mockupConfigs

/-- With every capture succeeding, all five records are produced. -/
theorem captureMockups_length_allOk (env : GenEnv)
    (hcap : ∀ c ∈ mockupConfigs, (env.mockupOutcome c.id).isOk = true) :
    (captureMockups env).length = 5 := by
  rw [captureMockups_eq_filterMap, length_filterMap_eq]
  have hall : ∀ c ∈ mockupConfigs, ((captureOne env c).isSome = true) := by
    intro c hc
    rw [captureOne_isSome]
    exact hcap c hc
  rw [List.filter_eq_self.mpr hall]
  rfl

/-- Preload resolves `null` when no logo is set. -/
theorem preloadLogo_noLogo (env : GenEnv) (h : getLogoUrl env.brandbook = none) :
    preloadLogo env = .ok none := by
  unfold preloadLogo
  rw [h]

/-- Preload yields a cached logo when the logo is set and decodes. -/
theorem preloadLogo_ok (env : GenEnv) (u : String) (w h : Nat)
    (hu : getLogoUrl env.brandbook = some u) (hp : env.logoPreload = some (w, h)) :
    ∃ cl, preloadLogo env = .ok (some cl) := by
  unfold preloadLogo
  rw [hu, hp]
  dsimp only
  split_ifs <;> exact ⟨_, rfl⟩

/-- Preload rejects when the logo is set but fails to decode. -/
theorem preloadLogo_fail (env : GenEnv) (u : String)
    (hu : getLogoUrl env.brandbook = some u) (hp : env.logoPreload = none) :
    preloadLogo env = .error .logoPreloadFailed := by
  unfold preloadLogo
  rw [hu, hp]

/-- The page sequence `generatePdf` emits once preload resolved. -/
theorem generatePdf_ok (env : GenEnv) (cl : Option CachedLogo)
    (hpre : preloadLogo env = .ok cl) :
    generatePdf env = .ok
      ([ Page.title cl.isSome env.brandbook.meta.name
       , Page.palette "01" 2
       , Page.typography "02" 3 ]
       ++ logoPageOpt cl
       ++ addMockupPagesFromCaptures (getLogoUrl env.brandbook).isSome (captureMockups env)
       ++ [Page.qr env.qrOk (if (getLogoUrl env.brandbook).isSome then "10" else "09")
             (if (getLogoUrl env.brandbook).isSome then 10 else 9)]) := by
  unfold generatePdf
  rw [hpre]
  rfl

/-- Tags of the mockup pages: one mockup page per capture record. -/
theorem addMockupPagesGo_map_tag (n : Nat) (cs : List CaptureRecord) :
    (addMockupPagesGo n cs).map pageTag = List.replicate cs.length PageTag.mockup := by
  induction cs generalizing n with
  | nil => rfl
  | cons c rest ih =>
    rw [addMockupPagesGo]
    simp only [List.map_cons, List.length_cons, List.replicate_succ, ih, pageTag]

/-- One mockup page per capture record. -/
theorem addMockupPagesGo_length (n : Nat) (cs : List CaptureRecord) :
    (addMockupPagesGo n cs).length = cs.length := by
  induction cs generalizing n with
  | nil => rfl
  | cons c rest ih =>
    rw [addMockupPagesGo]
    simp only [List.length_cons, ih]

/-- Header labels of the mockup pages are the capture records' labels,
independent of the starting footer index. -/
theorem addMockupPagesGo_nums (n : Nat) (cs : List CaptureRecord) :
    mockupHeaderNums (addMockupPagesGo n cs) = cs.map (fun c => c.num) := by
  induction cs generalizing n with
  | nil => rfl
  | cons c rest ih =>
    rw [addMockupPagesGo]
    have h2 := ih (n + 1)
    simp only [mockupHeaderNums, List.filterMap_cons, List.map_cons] at h2 ⊢
    rw [h2]

/-- Footer indices of the mockup pages count up from the start index. -/
theorem addMockupPagesGo_footers (n : Nat) (cs : List CaptureRecord) :
    mockupFooterNums (addMockupPagesGo n cs) = List.range' n cs.length := by
  induction cs generalizing n with
  | nil => rfl
  | cons c rest ih =>
    rw [addMockupPagesGo]
    have h2 := ih (n + 1)
    simp only [mockupFooterNums, List.filterMap_cons, List.length_cons, List.range'] at h2 ⊢
    rw [h2]

/-! ## C2: page count and page order -/

/-- C2: with all five captures succeeding, a profile with no logo yields
exactly 9 pages in the fixed order title, palette, typography, five
mockups, QR; with a logo set (and decoding), exactly 10 pages, the only
addition being the logo page right after typography. -/
theorem generatePdf_pageCount (env : GenEnv)
    (hcap : ∀ c ∈ mockupConfigs, (env.mockupOutcome c.id).isOk = true) :
    (getLogoUrl env.brandbook = none →
      ∃ pages, generatePdf env = .ok pages ∧ pages.length = 9 ∧
        pages.map pageTag =
          [.title, .palette, .typography, .mockup, .mockup, .mockup, .mockup, .mockup, .qr])
    ∧ (∀ u w h, getLogoUrl env.brandbook = some u → env.logoPreload = some (w, h) →
      ∃ pages, generatePdf env = .ok pages ∧ pages.length = 10 ∧
        pages.map pageTag =
          [.title, .palette, .typography, .logoPage,
           .mockup, .mockup, .mockup, .mockup, .mockup, .qr]) := by
  have hlen := captureMockups_length_allOk env hcap
  constructor
  · intro h0
    refine ⟨_, generatePdf_ok env none (preloadLogo_noLogo env h0), ?_, ?_⟩
    · simp [h0, logoPageOpt, addMockupPagesFromCaptures, addMockupPagesGo_length, hlen]
    · simp only [h0, Option.isSome_none, logoPageOpt, addMockupPagesFromCaptures,
        Bool.false_eq_true, if_false, List.map_append, addMockupPagesGo_map_tag, hlen]
      rfl
  · intro u w h hu hp
    obtain ⟨cl, hpre⟩ := preloadLogo_ok env u w h hu hp
    refine ⟨_, generatePdf_ok env (some cl) hpre, ?_, ?_⟩
    · simp [hu, logoPageOpt, addMockupPagesFromCaptures, addMockupPagesGo_length, hlen]
    · simp only [hu, Option.isSome_some, logoPageOpt, addMockupPagesFromCaptures, if_true,
        List.map_append, addMockupPagesGo_map_tag, hlen]
      rfl

/-- Witness for C2 at the concrete no-logo environment. -/
theorem generatePdf_pageCount_witness :
    ∃ pages, generatePdf envNoLogoC5 = .ok pages ∧ pages.length = 9 ∧
      pages.map pageTag =
        [.title, .palette, .typography, .mockup, .mockup, .mockup, .mockup, .mockup, .qr] :=
  (generatePdf_pageCount envNoLogoC5 (by decide)).1 rfl

/-! ## C3: capture isolation -/

/-- C3: when exactly one mockup capture fails (missing node or caught
exception) and every other one succeeds, `generatePdf` still resolves:
the document has one mockup page per successful capture (4 of them) and
every other page is emitted in order; no exception escapes (the result
is `ok`, the only propagating failure being logo preload, assumed
healthy here). -/
theorem generatePdf_captureIsolation (env : GenEnv) (fid : String)
    (hmem : fid ∈ mockupConfigs.map fun c => c.id)
    (hfail : (env.mockupOutcome fid).isOk = false)
    (hok : ∀ c ∈ mockupConfigs, c.id ≠ fid → (env.mockupOutcome c.id).isOk = true)
    (hlogo : getLogoUrl env.brandbook = none ∨ ∃ w h, env.logoPreload = some (w, h)) :
    ∃ pages, generatePdf env = .ok pages ∧
      pages.map pageTag =
        [.title, .palette, .typography]
        ++ (if (getLogoUrl env.brandbook).isSome then [.logoPage] else [])
        ++ List.replicate 4 .mockup ++ [.qr] := by
  have hlen : (captureMockups env).length = 4 := by
    rw [captureMockups_eq_filterMap, length_filterMap_eq]
    have hpt : ∀ c ∈ mockupConfigs, ((captureOne env c).isSome) = (decide (c.id ≠ fid)) := by
      intro c hc
      rw [captureOne_isSome]
      by_cases h : c.id = fid
      · rw [h, hfail]
        simp [h]
      · simp [hok c hc h, h]
    rw [List.filter_congr hpt]
    simp only [mockupConfigs, List.map_cons, List.map_nil, List.mem_cons,
      List.not_mem_nil, or_false] at hmem
    rcases hmem with h | h | h | h | h <;> (subst h; decide)
  have hcl : ∃ cl : Option CachedLogo,
      preloadLogo env = .ok cl ∧ cl.isSome = (getLogoUrl env.brandbook).isSome := by
    cases hgu : getLogoUrl env.brandbook with
    | none => exact ⟨none, preloadLogo_noLogo env hgu, rfl⟩
    | some u =>
      rcases hlogo with h | ⟨w, h2, hp⟩
      · rw [hgu] at h
        exact absurd h (by simp)
      · obtain ⟨cl, hpre⟩ := preloadLogo_ok env u w h2 hgu hp
        exact ⟨some cl, hpre, rfl⟩
  obtain ⟨cl, hpre, hiso⟩ := hcl
  refine ⟨_, generatePdf_ok env cl hpre, ?_⟩
  rw [← hiso]
  cases cl with
  | none =>
    simp only [List.map_append, addMockupPagesFromCaptures, Option.isSome_none,
      Bool.false_eq_true, if_false, addMockupPagesGo_map_tag, hlen, logoPageOpt]
    rfl
  | some c =>
    simp only [List.map_append, addMockupPagesFromCaptures, Option.isSome_some, if_true,
      addMockupPagesGo_map_tag, hlen, logoPageOpt]
    rfl

/-- Witness for C3: the envelope node is missing, the other four
mockups capture, generation resolves with 4 mockup pages. -/
theorem generatePdf_captureIsolation_witness :
    ∃ pages, generatePdf envOneFail = .ok pages ∧
      pages.map pageTag =
        [.title, .palette, .typography]
        ++ (if (getLogoUrl envOneFail.brandbook).isSome then [.logoPage] else [])
        ++ List.replicate 4 .mockup ++ [.qr] :=
  generatePdf_captureIsolation envOneFail "mockup-envelope"
    (by decide) (by decide) (by decide) (Or.inl rfl)

/-! ## C4: logo preload failure -/

/-- C4 counterexample: a concrete run with a logo set whose image fails
to decode, and every capture healthy: `generatePdf` does not recover —
it propagates the preload failure and emits no document, contradicting
the claim that generation proceeds to completion as if no logo were
set. -/
theorem logoPreload_failure_counterexample :
    getLogoUrl envPreloadFail.brandbook = some "data:image/svg+xml;base64,x" ∧
    (∀ c ∈ mockupConfigs, (envPreloadFail.mockupOutcome c.id).isOk = true) ∧
    generatePdf envPreloadFail = .error .logoPreloadFailed := by
  refine ⟨by decide, by decide, rfl⟩

/-- C4 amended: when the logo is set and its preload fails, the
rejection propagates out of `generatePdf` (the `await preloadLogo()` is
unguarded): no pages are emitted and the error reaches the caller,
which is where it is caught (`handleExportPdf` shows a failure toast). -/
theorem logoPreload_failure_propagates (env : GenEnv) (u : String)
    (hu : getLogoUrl env.brandbook = some u) (hp : env.logoPreload = none) :
    generatePdf env = .error .logoPreloadFailed := by
  unfold generatePdf
  rw [preloadLogo_fail env u hu hp]
  rfl

/-- Witness for C4's amended theorem at the concrete failing run. -/
theorem logoPreload_failure_propagates_witness :
    getLogoUrl envPreloadFail.brandbook = some "data:image/svg+xml;base64,x" ∧
    envPreloadFail.logoPreload = none ∧
    generatePdf envPreloadFail = .error .logoPreloadFailed :=
  ⟨by decide, rfl,
   logoPreload_failure_propagates envPreloadFail "data:image/svg+xml;base64,x" (by decide) rfl⟩

/-! ## C5: header labels under logo insertion -/

/-- Auxiliary: shifting `range'` by one. -/
theorem range'_map_succ (l n : Nat) :
    (List.range' n l).map (fun k => k + 1) = List.range' (n + 1) l := by
  induction l generalizing n with
  | zero => rfl
  | succ l ih => simp [List.range', ih]

/-- Auxiliary: mockup header labels across concatenation. -/
theorem mockupHeaderNums_append (a b : List Page) :
    mockupHeaderNums (a ++ b) = mockupHeaderNums a ++ mockupHeaderNums b := by
  simp [mockupHeaderNums]

/-- Auxiliary: mockup footer indices across concatenation. -/
theorem mockupFooterNums_append (a b : List Page) :
    mockupFooterNums (a ++ b) = mockupFooterNums a ++ mockupFooterNums b := by
  simp [mockupFooterNums]

/-- Auxiliary: QR header labels across concatenation. -/
theorem qrHeaderNums_append (a b : List Page) :
    qrHeaderNums (a ++ b) = qrHeaderNums a ++ qrHeaderNums b := by
  simp [qrHeaderNums]

/-- Auxiliary: QR footer indices across concatenation. -/
theorem qrFooterNums_append (a b : List Page) :
    qrFooterNums (a ++ b) = qrFooterNums a ++ qrFooterNums b := by
  simp [qrFooterNums]

/-- Auxiliary: the three static pages carry no mockup header label. -/
theorem mockupHeaderNums_static (b : Bool) (nm n2 n3 : String) (f2 f3 : Nat) :
    mockupHeaderNums [Page.title b nm, Page.palette n2 f2, Page.typography n3 f3] = [] := rfl

/-- Auxiliary: the optional logo page carries no mockup header label. -/
theorem mockupHeaderNums_logoOpt (cl : Option CachedLogo) :
    mockupHeaderNums (logoPageOpt cl) = [] := by
  cases cl <;> rfl

/-- Auxiliary: the QR page carries no mockup header label. -/
theorem mockupHeaderNums_qrPage (b : Bool) (n : String) (f : Nat) :
    mockupHeaderNums [Page.qr b n f] = [] := rfl

/-- Auxiliary: the three static pages carry no mockup footer entry. -/
theorem mockupFooterNums_static (b : Bool) (nm n2 n3 : String) (f2 f3 : Nat) :
    mockupFooterNums [Page.title b nm, Page.palette n2 f2, Page.typography n3 f3] = [] := rfl

/-- Auxiliary: the optional logo page carries no mockup footer entry. -/
theorem mockupFooterNums_logoOpt (cl : Option CachedLogo) :
    mockupFooterNums (logoPageOpt cl) = [] := by
  cases cl <;> rfl

/-- Auxiliary: the QR page carries no mockup footer entry. -/
theorem mockupFooterNums_qrPage (b : Bool) (n : String) (f : Nat) :
    mockupFooterNums [Page.qr b n f] = [] := rfl

/-- Auxiliary: the three static pages carry no QR header label. -/
theorem qrHeaderNums_static (b : Bool) (nm n2 n3 : String) (f2 f3 : Nat) :
    qrHeaderNums [Page.title b nm, Page.palette n2 f2, Page.typography n3 f3] = [] := rfl

/-- Auxiliary: the optional logo page carries no QR header label. -/
theorem qrHeaderNums_logoOpt (cl : Option CachedLogo) :
    qrHeaderNums (logoPageOpt cl) = [] := by
  cases cl <;> rfl

/-- Auxiliary: mockup pages carry no QR header label. -/
theorem qrHeaderNums_go (n : Nat) (cs : List CaptureRecord) :
    qrHeaderNums (addMockupPagesGo n cs) = [] := by
  induction cs generalizing n with
  | nil => rfl
  | cons c rest ih =>
    rw [addMockupPagesGo]
    have h2 := ih (n + 1)
    simp only [qrHeaderNums, List.filterMap_cons] at h2 ⊢
    rw [h2]

/-- Auxiliary: the QR page's header label. -/
theorem qrHeaderNums_qrPage (b : Bool) (n : String) (f : Nat) :
    qrHeaderNums [Page.qr b n f] = [n] := rfl

/-- Auxiliary: the three static pages carry no QR footer entry. -/
theorem qrFooterNums_static (b : Bool) (nm n2 n3 : String) (f2 f3 : Nat) :
    qrFooterNums [Page.title b nm, Page.palette n2 f2, Page.typography n3 f3] = [] := rfl

/-- Auxiliary: the optional logo page carries no QR footer entry. -/
theorem qrFooterNums_logoOpt (cl : Option CachedLogo) :
    qrFooterNums (logoPageOpt cl) = [] := by
  cases cl <;> rfl

/-- Auxiliary: mockup pages carry no QR footer entry. -/
theorem qrFooterNums_go (n : Nat) (cs : List CaptureRecord) :
    qrFooterNums (addMockupPagesGo n cs) = [] := by
  induction cs generalizing n with
  | nil => rfl
  | cons c rest ih =>
    rw [addMockupPagesGo]
    have h2 := ih (n + 1)
    simp only [qrFooterNums, List.filterMap_cons] at h2 ⊢
    rw [h2]

/-- Auxiliary: the QR page's footer index. -/
theorem qrFooterNums_qrPage (b : Bool) (n : String) (f : Nat) :
    qrFooterNums [Page.qr b n f] = [f] := rfl

/-- Auxiliary: the capture loop reads only the mockup outcomes. -/
theorem captureMockups_congr {envA envB : GenEnv}
    (h : envA.mockupOutcome = envB.mockupOutcome) :
    captureMockups envA = captureMockups envB := by
  unfold captureMockups
  rw [h]

/-- Auxiliary: pages of a resolved generation. -/
theorem getPages_ok {pages : List Page} {e : Except GenError (List Page)}
    (h : e = .ok pages) : getPages e = pages := by
  rw [h]
  rfl

/-- C5 counterexample: at a concrete profile, going from no logo to a
logo leaves every mockup page header label unchanged at its pre-assigned
value `05`..`09` — they do not shift by one ordinal — while the QR page
header label does move from `09` to `10`. -/
theorem headerLabels_counterexample :
    mockupHeaderNums (getPages (generatePdf envNoLogoC5)) = ["05", "06", "07", "08", "09"] ∧
    mockupHeaderNums (getPages (generatePdf envLogoC5)) = ["05", "06", "07", "08", "09"] ∧
    ¬ mockupHeaderNums (getPages (generatePdf envLogoC5)) = ["06", "07", "08", "09", "10"] ∧
    qrHeaderNums (getPages (generatePdf envNoLogoC5)) = ["09"] ∧
    qrHeaderNums (getPages (generatePdf envLogoC5)) = ["10"] := by
  refine ⟨by decide, by decide, by decide, by decide, by decide⟩

/-- C5 amended: adding a logo leaves the mockup page header labels
untouched (they are pre-assigned per content type and never renumber);
what shifts by one are the footer page indices of the mockup pages and
both the header label and footer index of the QR page (`09`/`9` to
`10`/`10`). -/
theorem headerLabels_amended (envA envB : GenEnv)
    (hmo : envA.mockupOutcome = envB.mockupOutcome)
    (hA : getLogoUrl envA.brandbook = none)
    (huB : (getLogoUrl envB.brandbook).isSome = true)
    (hpB : ∃ w h, envB.logoPreload = some (w, h)) :
    mockupHeaderNums (getPages (generatePdf envB)) =
      mockupHeaderNums (getPages (generatePdf envA)) ∧
    mockupFooterNums (getPages (generatePdf envA)) =
      List.range' 4 (captureMockups envA).length ∧
    mockupFooterNums (getPages (generatePdf envB)) =
      (mockupFooterNums (getPages (generatePdf envA))).map (fun k => k + 1) ∧
    qrHeaderNums (getPages (generatePdf envA)) = ["09"] ∧
    qrHeaderNums (getPages (generatePdf envB)) = ["10"] ∧
    qrFooterNums (getPages (generatePdf envA)) = [9] ∧
    qrFooterNums (getPages (generatePdf envB)) = [10] := by
  obtain ⟨w, h, hp⟩ := hpB
  obtain ⟨u, hu⟩ := Option.isSome_iff_exists.mp huB
  obtain ⟨cl, hpreB⟩ := preloadLogo_ok envB u w h hu hp
  have hgA := getPages_ok (generatePdf_ok envA none (preloadLogo_noLogo envA hA))
  have hgB := getPages_ok (generatePdf_ok envB (some cl) hpreB)
  have hcap : captureMockups envA = captureMockups envB := captureMockups_congr hmo
  rw [hgA, hgB, hA, hu]
  simp only [Option.isSome_none, Option.isSome_some, Bool.false_eq_true, if_false, if_true,
    addMockupPagesFromCaptures, hcap]
  simp only [mockupHeaderNums_append, mockupHeaderNums_static, mockupHeaderNums_logoOpt,
    mockupHeaderNums_qrPage, mockupFooterNums_append, mockupFooterNums_static,
    mockupFooterNums_logoOpt, mockupFooterNums_qrPage, qrHeaderNums_append,
    qrHeaderNums_static, qrHeaderNums_logoOpt, qrHeaderNums_go, qrHeaderNums_qrPage,
    qrFooterNums_append, qrFooterNums_static, qrFooterNums_logoOpt, qrFooterNums_go,
    qrFooterNums_qrPage, addMockupPagesGo_nums, addMockupPagesGo_footers,
    range'_map_succ, List.nil_append, List.append_nil]
  exact ⟨trivial, trivial, trivial, trivial, trivial, trivial, trivial⟩

/-- Witness for C5's amended theorem at the concrete pair of runs. -/
theorem headerLabels_amended_witness :
    mockupHeaderNums (getPages (generatePdf envLogoC5)) =
      mockupHeaderNums (getPages (generatePdf envNoLogoC5)) ∧
    mockupFooterNums (getPages (generatePdf envNoLogoC5)) =
      List.range' 4 (captureMockups envNoLogoC5).length ∧
    mockupFooterNums (getPages (generatePdf envLogoC5)) =
      (mockupFooterNums (getPages (generatePdf envNoLogoC5))).map (fun k => k + 1) ∧
    qrHeaderNums (getPages (generatePdf envNoLogoC5)) = ["09"] ∧
    qrHeaderNums (getPages (generatePdf envLogoC5)) = ["10"] ∧
    qrFooterNums (getPages (generatePdf envNoLogoC5)) = [9] ∧
    qrFooterNums (getPages (generatePdf envLogoC5)) = [10] :=
  headerLabels_amended envNoLogoC5 envLogoC5 rfl rfl (by decide) ⟨64, 64, rfl⟩

/-! ## C9: sequential capture ordering -/

/-- Auxiliary: the event trace of the capture loop, as the begin/finish
pair blocks of the attempted mockups in the fixed order. -/
theorem captureTrace_eq (env : GenEnv) :
    captureTrace env =
      ((mockupConfigs.filter (attempted env)).map
        fun c => [CapEvent.begun c.id, CapEvent.finished c.id]).flatten := by
  have hgen : ∀ (l : List MockupConfig) (acc : List CapEvent),
      List.foldl
        (fun acc config =>
          match env.mockupOutcome config.id with
          | .noElement => acc
          | _ => acc ++ [CapEvent.begun config.id, CapEvent.finished config.id])
        acc l =
        acc ++ ((l.filter (attempted env)).map
          fun c => [CapEvent.begun c.id, CapEvent.finished c.id]).flatten := by
    intro l
    induction l with
    | nil => intro acc; simp
    | cons c rest ih =>
      intro acc
      rw [List.foldl_cons, List.filter_cons]
      cases hc : env.mockupOutcome c.id with
      | noElement => simp only [hc, attempted, Bool.false_eq_true, if_false, ih]
      | failed => simp [hc, attempted, ih]
      | ok d w h => simp [hc, attempted, ih]
  rw [captureTrace, hgen mockupConfigs []]
  rfl

/-- C9: mockup captures are strictly sequential — the event trace is a
chain of begin/finish pairs, one per attempted mockup, in the fixed
order business card, social avatar, letterhead, envelope, presentation
(no capture begins before the previous one finished) — and the capture
record list, hence the mockup page emission order, is exactly that
fixed order restricted to the mockups found and captured successfully. -/
theorem capture_sequential_ordering (env : GenEnv) :
    SeqTrace (captureTrace env) ∧
    (captureTrace env).filterMap beginIdOf =
      (mockupConfigs.filter (attempted env)).map (fun c => c.id) ∧
    (captureMockups env).map (fun c => c.id) =
      (mockupConfigs.filter fun c => (env.mockupOutcome c.id).isOk).map (fun c => c.id) := by
  refine ⟨?_, ?_, captureMockups_ids env⟩
  · rw [captureTrace_eq]
    generalize mockupConfigs.filter (attempted env) = l
    induction l with
    | nil => exact SeqTrace.nil
    | cons c rest ih =>
      rw [List.map_cons, List.flatten_cons]
      exact SeqTrace.pair c.id _ ih
  · rw [captureTrace_eq]
    generalize mockupConfigs.filter (attempted env) = l
    induction l with
    | nil => rfl
    | cons c rest ih =>
      rw [List.map_cons, List.flatten_cons, List.map_cons]
      simp only [List.filterMap_append, List.filterMap_cons, beginIdOf]
      rw [ih]
      rfl

/-! ## C7: share URL round trip

The proof works layer by layer: literal consumption, JSON string
escaping, integer and list literals, the object parsers against their
serializers, then UTF-8, base64 and the padding strip/re-add. -/

/-- Auxiliary: a list is a boolean prefix of itself plus anything. -/
theorem isPrefixOf_append_self (l r : List Char) : l.isPrefixOf (l ++ r) = true := by
  induction l with
  | nil => exact List.isPrefixOf_nil_left
  | cons a as ih =>
    rw [List.cons_append, List.isPrefixOf_cons₂, ih]
    simp

/-- Auxiliary: consuming an expected literal succeeds on it. -/
theorem expectLit_append (lit rest : List Char) : expectLit lit (lit ++ rest) = some rest := by
  unfold expectLit
  rw [if_pos (isPrefixOf_append_self lit rest)]
  rw [List.drop_left]

/-- Auxiliary: consuming an expected literal fails on a head mismatch. -/
theorem expectLit_cons_ne {a b : Char} (h : a ≠ b) (lit cs : List Char) :
    expectLit (a :: lit) (b :: cs) = none := by
  unfold expectLit
  rw [if_neg]
  intro hp
  simp only [List.isPrefixOf, Bool.and_eq_true, beq_iff_eq] at hp
  exact h hp.1

/-- Auxiliary: hex digits emitted for control characters evaluate back. -/
theorem hexDigitCharLower_roundtrip (n : Nat) (h : n < 16) :
    isHexDigitChar (hexDigitCharLower n) = true ∧ hexDigitVal (hexDigitCharLower n) = n := by
  interval_cases n <;> exact ⟨by decide, by decide⟩

/-- Auxiliary: scanning one serialized character undoes its escape. -/
theorem escChar_step (c : Char) (acc tail : List Char) :
    parseJStringAux acc (escChar c ++ tail) = parseJStringAux (c :: acc) tail := by
  unfold escChar
  split_ifs with h1 h2 h3 h4 h5 h6 h7 h8
  · subst h1
    simp only [List.cons_append, List.nil_append]
    rw [parseJStringAux.eq_def]
    dsimp only
    rw [if_neg (by decide), if_pos rfl, if_pos rfl]
  · subst h2
    simp only [List.cons_append, List.nil_append]
    rw [parseJStringAux.eq_def]
    dsimp only
    rw [if_neg (by decide), if_pos rfl, if_neg (by decide), if_pos rfl]
  · have hc : c = Char.ofNat 8 := by rw [← Char.ofNat_toNat c, h3]
    rw [hc]
    simp only [List.cons_append, List.nil_append]
    rw [parseJStringAux.eq_def]
    dsimp only
    rw [if_neg (by decide), if_pos rfl, if_neg (by decide), if_neg (by decide),
      if_neg (by decide), if_pos rfl]
  · have hc : c = Char.ofNat 9 := by rw [← Char.ofNat_toNat c, h4]
    rw [hc]
    simp only [List.cons_append, List.nil_append]
    rw [parseJStringAux.eq_def]
    dsimp only
    rw [if_neg (by decide), if_pos rfl, if_neg (by decide), if_neg (by decide),
      if_neg (by decide), if_neg (by decide), if_pos rfl]
  · have hc : c = Char.ofNat 10 := by rw [← Char.ofNat_toNat c, h5]
    rw [hc]
    simp only [List.cons_append, List.nil_append]
    rw [parseJStringAux.eq_def]
    dsimp only
    rw [if_neg (by decide), if_pos rfl, if_neg (by decide), if_neg (by decide),
      if_neg (by decide), if_neg (by decide), if_neg (by decide), if_pos rfl]
  · have hc : c = Char.ofNat 12 := by rw [← Char.ofNat_toNat c, h6]
    rw [hc]
    simp only [List.cons_append, List.nil_append]
    rw [parseJStringAux.eq_def]
    dsimp only
    rw [if_neg (by decide), if_pos rfl, if_neg (by decide), if_neg (by decide),
      if_neg (by decide), if_neg (by decide), if_neg (by decide), if_neg (by decide),
      if_pos rfl]
  · have hc : c = Char.ofNat 13 := by rw [← Char.ofNat_toNat c, h7]
    rw [hc]
    simp only [List.cons_append, List.nil_append]
    rw [parseJStringAux.eq_def]
    dsimp only
    rw [if_neg (by decide), if_pos rfl, if_neg (by decide), if_neg (by decide),
      if_neg (by decide), if_neg (by decide), if_neg (by decide), if_neg (by decide),
      if_neg (by decide), if_pos rfl]
  · have hhi := hexDigitCharLower_roundtrip (c.toNat / 16) (by omega)
    have hlo := hexDigitCharLower_roundtrip (c.toNat % 16) (by omega)
    simp only [List.cons_append, List.nil_append]
    rw [parseJStringAux.eq_def]
    dsimp only
    rw [if_neg (by decide), if_pos rfl, if_neg (by decide), if_neg (by decide),
      if_neg (by decide), if_neg (by decide), if_neg (by decide), if_neg (by decide),
      if_neg (by decide), if_neg (by decide), if_pos rfl]
    rw [if_pos (by rw [hhi.1, hlo.1]; decide)]
    have hval : hexDigitVal '0' * 4096 + hexDigitVal '0' * 256 +
        hexDigitVal (hexDigitCharLower (c.toNat / 16)) * 16 +
        hexDigitVal (hexDigitCharLower (c.toNat % 16)) = c.toNat := by
      rw [hhi.2, hlo.2]
      have h0 : hexDigitVal '0' = 0 := by decide
      rw [h0]
      omega
    rw [hval, Char.ofNat_toNat]
  · rw [List.cons_append, List.nil_append, parseJStringAux.eq_def]
    dsimp only
    rw [if_neg h1, if_neg h2]

/-- Auxiliary: the string-body scanner undoes the serializer. -/
theorem parseJStringAux_ser (s : List Char) :
    ∀ (acc rest : List Char),
      parseJStringAux acc ((s.map escChar).flatten ++ '"' :: rest) =
        some (String.mk (acc.reverse ++ s), rest) := by
  induction s with
  | nil =>
    intro acc rest
    rw [List.map_nil, List.flatten_nil, List.nil_append, parseJStringAux.eq_def]
    dsimp only
    rw [if_pos rfl]
    simp
  | cons c cs ih =>
    intro acc rest
    rw [List.map_cons, List.flatten_cons, List.append_assoc, escChar_step, ih]
    simp

/-- Auxiliary: parsing a serialized JSON string literal returns the
original string. -/
theorem parseJString_ser (s : String) (rest : List Char) :
    parseJString (serJString s ++ rest) = some (s, rest) := by
  have hshape : serJString s ++ rest =
      '"' :: ((s.data.map escChar).flatten ++ '"' :: rest) := by
    unfold serJString
    simp
  rw [hshape]
  show parseJStringAux [] ((s.data.map escChar).flatten ++ '"' :: rest) = some (s, rest)
  rw [parseJStringAux_ser]
  simp

/-- Auxiliary: parsing a serialized boolean literal. -/
theorem parseBool_ser (b : Bool) (rest : List Char) :
    parseBool (serBool b ++ rest) = some (b, rest) := by
  cases b
  · have hne : expectLit "true".data ("false".data ++ rest) = none := by
      rw [show ("true".data : List Char) = 't' :: "rue".data from rfl,
          show (("false".data : List Char) ++ rest) = 'f' :: ("alse".data ++ rest) from rfl]
      exact expectLit_cons_ne (by decide) _ _
    show parseBool ("false".data ++ rest) = some (false, rest)
    unfold parseBool
    rw [hne, expectLit_append]
  · show parseBool ("true".data ++ rest) = some (true, rest)
    unfold parseBool
    rw [expectLit_append]

/-- Auxiliary: decimal digit characters round-trip their value. -/
theorem digitChar_toNat (d : Nat) (h : d < 10) : (digitChar d).toNat = 48 + d := by
  interval_cases d <;> decide

/-- Auxiliary: decimal digit characters satisfy the digit test. -/
theorem digitChar_isDigit (d : Nat) (h : d < 10) : isDigitChar (digitChar d) = true := by
  interval_cases d <;> decide

/-- Auxiliary: a number always serializes to at least one digit. -/
theorem natDigits_ne_nil (n : Nat) : natDigits n ≠ [] := by
  unfold natDigits
  split_ifs <;> simp

/-- Auxiliary: every serialized character is a decimal digit. -/
theorem natDigits_all_digit (n : Nat) : ∀ c ∈ natDigits n, isDigitChar c = true := by
  induction n using Nat.strong_induction_on with
  | _ n ih =>
    intro c hc
    unfold natDigits at hc
    split_ifs at hc with h
    · simp only [List.mem_singleton] at hc
      subst hc
      exact digitChar_isDigit n h
    · rw [List.mem_append, List.mem_singleton] at hc
      rcases hc with hc | hc
      · exact ih (n / 10) (Nat.div_lt_self (by omega) (by omega)) c hc
      · subst hc
        exact digitChar_isDigit (n % 10) (by omega)

/-- Auxiliary: evaluating an appended final digit. -/
theorem digitsToNat_append (ds : List Char) (c : Char) :
    digitsToNat (ds ++ [c]) = digitsToNat ds * 10 + (c.toNat - 48) := by
  unfold digitsToNat
  rw [List.foldl_append]
  rfl

/-- Auxiliary: evaluating the serialized digits returns the number. -/
theorem digitsToNat_natDigits (n : Nat) : digitsToNat (natDigits n) = n := by
  induction n using Nat.strong_induction_on with
  | _ n ih =>
    unfold natDigits
    split_ifs with h
    · show digitsToNat ([] ++ [digitChar n]) = n
      rw [digitsToNat_append, digitChar_toNat n h]
      unfold digitsToNat
      simp
    · rw [digitsToNat_append, ih (n / 10) (Nat.div_lt_self (by omega) (by omega)),
        digitChar_toNat (n % 10) (by omega)]
      omega

/-- Auxiliary: `takeWhile` and `dropWhile` split a run of satisfying
characters followed by a non-satisfying head. -/
theorem takeWhile_app_all (p : Char → Bool) (xs ys : List Char)
    (h1 : ∀ x ∈ xs, p x = true) (h2 : ∀ c, ys.head? = some c → p c = false) :
    (xs ++ ys).takeWhile p = xs ∧ (xs ++ ys).dropWhile p = ys := by
  induction xs with
  | nil =>
    cases ys with
    | nil => exact ⟨rfl, rfl⟩
    | cons y ys =>
      have hy := h2 y rfl
      simp [List.takeWhile, List.dropWhile, hy]
  | cons x xs ih =>
    have hx := h1 x (by simp)
    obtain ⟨ht, hd⟩ := ih (fun a ha => h1 a (by simp [ha]))
    simp [List.takeWhile, List.dropWhile, hx, ht, hd]

/-- Auxiliary: parsing a serialized integer literal, when the following
character is not a digit. -/
theorem parseJInt_ser (i : Int) (rest : List Char)
    (hrest : ∀ c, rest.head? = some c → isDigitChar c = false) :
    parseJInt (serInt i ++ rest) = some (i, rest) := by
  by_cases hi : i < 0
  · rw [serInt, if_pos hi, List.cons_append]
    unfold parseJInt
    dsimp only
    rw [if_pos rfl]
    obtain ⟨ht, hd⟩ := takeWhile_app_all isDigitChar (natDigits i.natAbs) rest
      (natDigits_all_digit i.natAbs) hrest
    rw [ht, hd]
    rw [if_neg (by simp [natDigits_ne_nil i.natAbs])]
    rw [digitsToNat_natDigits]
    have hn : -(i.natAbs : Int) = i := by omega
    rw [hn]
  · rw [serInt, if_neg hi]
    cases hdg : natDigits i.toNat with
    | nil => exact absurd hdg (natDigits_ne_nil _)
    | cons d ds0 =>
      have hdig : isDigitChar d = true := by
        apply natDigits_all_digit i.toNat
        rw [hdg]
        simp
      have hne : ¬(d = '-') := by
        intro hd
        rw [hd] at hdig
        exact absurd hdig (by decide)
      rw [List.cons_append]
      unfold parseJInt
      dsimp only
      rw [if_neg hne]
      simp only [← List.cons_append]
      obtain ⟨ht, hd⟩ := takeWhile_app_all isDigitChar (d :: ds0) rest
        (fun x hx => natDigits_all_digit i.toNat x (by rw [hdg]; exact hx)) hrest
      rw [ht, hd]
      rw [if_neg (by simp)]
      rw [← hdg, digitsToNat_natDigits]
      have hn : (i.toNat : Int) = i := by omega
      rw [hn]

/-- Auxiliary: a serialized integer is never empty. -/
theorem serInt_ne_nil (i : Int) : serInt i ≠ [] := by
  unfold serInt
  split_ifs
  · simp
  · exact natDigits_ne_nil _

/-- Auxiliary: a serialized integer starts with a minus or a digit. -/
theorem serInt_head (i : Int) :
    ∃ d ds, serInt i = d :: ds ∧ (d = '-' ∨ isDigitChar d = true) := by
  unfold serInt
  split_ifs
  · exact ⟨'-', _, rfl, Or.inl rfl⟩
  · cases hdg : natDigits i.toNat with
    | nil => exact absurd hdg (natDigits_ne_nil _)
    | cons d ds =>
      refine ⟨d, ds, rfl, Or.inr ?_⟩
      apply natDigits_all_digit i.toNat
      rw [hdg]
      simp

/-- Auxiliary: at least one character per serialized array element. -/
theorem serIntsSep_length_ge (l : List Int) : l.length ≤ (serIntsSep l).length := by
  induction l with
  | nil => simp [serIntsSep]
  | cons i t ih =>
    have hi : 1 ≤ (serInt i).length :=
      List.length_pos.mpr (serInt_ne_nil i)
    cases t with
    | nil =>
      show (1 : Nat) ≤ (serInt i).length
      exact hi
    | cons j t2 =>
      show (j :: t2).length + 1 ≤ (serInt i ++ ',' :: serIntsSep (j :: t2)).length
      have h2 := ih
      simp only [List.length_append, List.length_cons] at h2 ⊢
      omega

/-- Auxiliary: the element loop undoes the comma-separated serializer,
given enough fuel. -/
theorem parseIntsAux_ser (l : List Int) :
    ∀ (fuel : Nat) (rest : List Char), l ≠ [] → l.length ≤ fuel →
      parseIntsAux fuel (serIntsSep l ++ ']' :: rest) = some (l, rest) := by
  induction l with
  | nil => intro _ _ h _; exact absurd rfl h
  | cons i t ih =>
    intro fuel rest _ hfuel
    cases fuel with
    | zero => simp at hfuel
    | succ f =>
      cases t with
      | nil =>
        show parseIntsAux (f + 1) (serInt i ++ ']' :: rest) = some ([i], rest)
        unfold parseIntsAux
        rw [parseJInt_ser i (']' :: rest) (by intro c hc; injection hc with hc; rw [← hc]; decide)]
        dsimp only
        rw [if_neg (by decide), if_pos rfl]
      | cons j t2 =>
        show parseIntsAux (f + 1)
          ((serInt i ++ ',' :: serIntsSep (j :: t2)) ++ ']' :: rest) = some (i :: j :: t2, rest)
        rw [List.append_assoc, List.cons_append]
        unfold parseIntsAux
        rw [parseJInt_ser i (',' :: (serIntsSep (j :: t2) ++ ']' :: rest))
          (by intro c hc; injection hc with hc; rw [← hc]; decide)]
        dsimp only
        rw [if_pos rfl]
        rw [ih f rest (by simp) (by simp at hfuel ⊢; omega)]

/-- Auxiliary: parsing a serialized integer array. -/
theorem parseIntList_ser (l : List Int) (rest : List Char) :
    parseIntList (serIntList l ++ rest) = some (l, rest) := by
  cases l with
  | nil =>
    show parseIntList ('[' :: ']' :: rest) = some ([], rest)
    unfold parseIntList
    dsimp only
    rw [if_pos rfl, if_pos rfl]
  | cons i t =>
    have hshape : serIntList (i :: t) ++ rest =
        '[' :: (serIntsSep (i :: t) ++ ']' :: rest) := by
      unfold serIntList
      simp
    rw [hshape]
    obtain ⟨d, ds, hser, hd⟩ := serInt_head i
    have htail : ∃ tail, serIntsSep (i :: t) = d :: tail := by
      cases t with
      | nil => exact ⟨ds, hser⟩
      | cons j t2 =>
        refine ⟨ds ++ ',' :: serIntsSep (j :: t2), ?_⟩
        show serInt i ++ ',' :: serIntsSep (j :: t2) = d :: (ds ++ ',' :: serIntsSep (j :: t2))
        rw [hser]
        rfl
    obtain ⟨tail, htail⟩ := htail
    have hne : ¬(d = ']') := by
      rcases hd with hd | hd
      · rw [hd]; decide
      · intro hcontra
        rw [hcontra] at hd
        exact absurd hd (by decide)
    rw [htail, List.cons_append]
    unfold parseIntList
    dsimp only
    rw [if_pos rfl, if_neg hne]
    rw [← List.cons_append, ← htail]
    apply parseIntsAux_ser (i :: t) _ rest (by simp)
    rw [List.length_append]
    have hlen := serIntsSep_length_ge (i :: t)
    omega

/-- Auxiliary: consuming a cons-headed literal off the matching input. -/
theorem expectLit_cons_append (a : Char) (lit rest : List Char) :
    expectLit (a :: lit) (a :: (lit ++ rest)) = some rest := by
  simpa only [List.cons_append] using expectLit_append (a :: lit) rest

/-- Auxiliary: consuming a one-character literal. -/
theorem expectLit_single (a : Char) (rest : List Char) :
    expectLit [a] (a :: rest) = some rest := by
  simpa only [List.cons_append, List.nil_append] using expectLit_append [a] rest

/-- Auxiliary: a closing brace never opens an `optional` field. -/
theorem expectLit_rbrace_comma (X : List Char) :
    expectLit [rbrace] (',' :: X) = none :=
  expectLit_cons_ne (by decide) _ _

/-- Auxiliary: a closing brace never opens an `optional` field (append shape). -/
theorem expectLit_rbrace_commaKeyApp (s : String) (X : List Char) :
    expectLit [rbrace] ((',' :: serKey s) ++ X) = none := by
  rw [List.cons_append]
  exact expectLit_cons_ne (by decide) _ _

/-- Auxiliary: an object never parses as the `null` literal. -/
theorem expectLit_null_lbraceKey (s : String) (X : List Char) :
    expectLit "null".data ((lbrace :: serKey s) ++ X) = none := by
  rw [List.cons_append,
    show ("null".data : List Char) = 'n' :: "ull".data from rfl]
  exact expectLit_cons_ne (by decide) _ _

/-- Auxiliary: parsing a serialized palette entry. -/
theorem parseColorEntry_ser (c : ColorEntry) (rest : List Char) :
    parseColorEntry (serColorEntry c ++ rest) = some (c, rest) := by
  obtain ⟨hex, name, opt⟩ := c
  cases opt with
  | none =>
    unfold serColorEntry parseColorEntry
    simp [List.append_assoc, expectLit_cons_append, expectLit_single,
      expectLit_rbrace_comma, parseJString_ser, parseBool_ser]
  | some b =>
    unfold serColorEntry parseColorEntry
    simp [List.append_assoc, expectLit_cons_append, expectLit_single,
      expectLit_rbrace_comma, parseJString_ser, parseBool_ser]

/-- Auxiliary: parsing a serialized nullable palette entry. -/
theorem parseOptColorEntry_ser (oc : Option ColorEntry) (rest : List Char) :
    parseOptColorEntry (serOptColorEntry oc ++ rest) = some (oc, rest) := by
  cases oc with
  | none =>
    show parseOptColorEntry ("null".data ++ rest) = some (none, rest)
    unfold parseOptColorEntry
    rw [expectLit_append]
  | some c =>
    show parseOptColorEntry (serColorEntry c ++ rest) = some (some c, rest)
    unfold parseOptColorEntry
    have hnull : expectLit "null".data (serColorEntry c ++ rest) = none := by
      unfold serColorEntry
      simp only [List.append_assoc]
      exact expectLit_null_lbraceKey "hex" _
    rw [hnull, parseColorEntry_ser]
    rfl

/-- Auxiliary: parsing a serialized typography entry. -/
theorem parseFontEntry_ser (f : FontEntry) (rest : List Char) :
    parseFontEntry (serFontEntry f ++ rest) = some (f, rest) := by
  obtain ⟨family, source, weights, usage, opt⟩ := f
  cases opt with
  | none =>
    have hshape : serFontEntry ⟨family, source, weights, usage, none⟩ ++ rest
        = (lbrace :: serKey "family") ++ (serJString family
          ++ ((',' :: serKey "source") ++ (serJString source
          ++ ((',' :: serKey "weights") ++ (serIntList weights
          ++ ((',' :: serKey "usage") ++ (serJString usage
          ++ ([rbrace] ++ rest)))))))) := by
      unfold serFontEntry
      simp only [List.append_assoc, List.nil_append]
    rw [hshape]
    unfold parseFontEntry
    simp only [Option.bind_eq_bind, Option.some_bind, Option.pure_def, expectLit_append,
      parseJString_ser, parseIntList_ser]
  | some b =>
    have hshape : serFontEntry ⟨family, source, weights, usage, some b⟩ ++ rest
        = (lbrace :: serKey "family") ++ (serJString family
          ++ ((',' :: serKey "source") ++ (serJString source
          ++ ((',' :: serKey "weights") ++ (serIntList weights
          ++ ((',' :: serKey "usage") ++ (serJString usage
          ++ ((',' :: serKey "optional") ++ (serBool b
          ++ ([rbrace] ++ rest)))))))))) := by
      unfold serFontEntry
      simp only [List.append_assoc]
    rw [hshape]
    unfold parseFontEntry
    simp only [Option.bind_eq_bind, Option.some_bind, Option.pure_def, expectLit_append,
      expectLit_rbrace_commaKeyApp, parseJString_ser, parseIntList_ser, parseBool_ser]

/-- Auxiliary: parsing a serialized nullable typography entry. -/
theorem parseOptFontEntry_ser (of : Option FontEntry) (rest : List Char) :
    parseOptFontEntry (serOptFontEntry of ++ rest) = some (of, rest) := by
  cases of with
  | none =>
    show parseOptFontEntry ("null".data ++ rest) = some (none, rest)
    unfold parseOptFontEntry
    rw [expectLit_append]
  | some f =>
    show parseOptFontEntry (serFontEntry f ++ rest) = some (some f, rest)
    unfold parseOptFontEntry
    have hnull : expectLit "null".data (serFontEntry f ++ rest) = none := by
      unfold serFontEntry
      simp only [List.append_assoc]
      exact expectLit_null_lbraceKey "family" _
    rw [hnull, parseFontEntry_ser]
    rfl

/-- Auxiliary: parsing the serialized colors section. -/
theorem parseShareColors_ser (c : Colors) (rest : List Char) :
    parseShareColors (serShareColors c ++ rest) = some (c, rest) := by
  have hshape : serShareColors c ++ rest
      = colorsSectionLit ++ (serColorEntry c.primary
        ++ ((',' :: serKey "secondary") ++ (serColorEntry c.secondary
        ++ ((',' :: serKey "accent") ++ (serOptColorEntry c.accent ++ rest))))) := by
    unfold serShareColors
    simp only [List.append_assoc]
  rw [hshape]
  unfold parseShareColors
  simp only [Option.bind_eq_bind, Option.some_bind, Option.pure_def, expectLit_append,
    parseColorEntry_ser, parseOptColorEntry_ser]

/-- Auxiliary: parsing the serialized typography section. -/
theorem parseShareTypography_ser (t : Typography) (rest : List Char) :
    parseShareTypography (serShareTypography t ++ rest) = some (t, rest) := by
  have hshape : serShareTypography t ++ rest
      = typographySectionLit ++ (serFontEntry t.primary
        ++ ((',' :: serKey "secondary") ++ (serOptFontEntry t.secondary ++ rest))) := by
    unfold serShareTypography
    simp only [List.append_assoc]
  rw [hshape]
  unfold parseShareTypography
  simp only [Option.bind_eq_bind, Option.some_bind, Option.pure_def, expectLit_append,
    parseFontEntry_ser, parseOptFontEntry_ser]

/-- Auxiliary: parsing the full serialized shareable payload. -/
theorem parseShareData_ser (sd : ShareData) (rest : List Char) :
    parseShareData (serShareData sd ++ rest) = some (sd, rest) := by
  have hshape : serShareData sd ++ rest
      = (lbrace :: serKey "version") ++ (serJString sd.version
        ++ (metaSectionLit ++ (serJString sd.metaName
        ++ ((',' :: serKey "generator") ++ (serJString sd.metaGenerator
        ++ (serShareColors sd.colors ++ (serShareTypography sd.typography
        ++ ([rbrace, rbrace] ++ rest)))))))) := by
    unfold serShareData
    simp only [List.append_assoc]
  rw [hshape]
  unfold parseShareData
  simp only [Option.bind_eq_bind, Option.some_bind, Option.pure_def, expectLit_append,
    parseJString_ser, parseShareColors_ser, parseShareTypography_ser]

/-- Auxiliary: every character code point is below the Unicode bound. -/
theorem char_toNat_lt (c : Char) : c.toNat < 1114112 := by
  have h := c.valid
  unfold UInt32.isValidChar Nat.isValidChar at h
  show c.val.toNat < 1114112
  rcases h with h | ⟨h1, h2⟩
  · exact Nat.lt_trans h (by norm_num)
  · exact h2

/-- Auxiliary: peeling an encoded code point off the front of a byte stream. -/
theorem utf8DecodeOne_encodeChar (n : Nat) (hn : n < 1114112) (bs : List Nat) :
    utf8DecodeOne (utf8EncodeChar n ++ bs) = some (n, bs) := by
  unfold utf8EncodeChar
  by_cases h1 : n < 128
  · rw [if_pos h1]
    simp only [List.cons_append, List.nil_append]
    unfold utf8DecodeOne
    dsimp only
    rw [if_pos h1]
  · rw [if_neg h1]
    by_cases h2 : n < 2048
    · rw [if_pos h2]
      simp only [List.cons_append, List.nil_append]
      unfold utf8DecodeOne
      dsimp only
      rw [if_neg (by omega), if_neg (by omega), if_pos (by omega)]
      rw [if_pos (show ((128 ≤ 128 + n % 64 : Bool) && (128 + n % 64 < 192 : Bool)) = true by
        simp only [Bool.and_eq_true, decide_eq_true_eq]
        omega)]
      have harg : (192 + n / 64 - 192) * 64 + (128 + n % 64 - 128) = n := by omega
      rw [harg]
    · rw [if_neg h2]
      by_cases h3 : n < 65536
      · rw [if_pos h3]
        simp only [List.cons_append, List.nil_append]
        unfold utf8DecodeOne
        dsimp only
        rw [if_neg (by omega), if_neg (by omega), if_neg (by omega), if_pos (by omega)]
        rw [if_pos (show (((128 ≤ 128 + n / 64 % 64 : Bool) && (128 + n / 64 % 64 < 192 : Bool))
            && ((128 ≤ 128 + n % 64 : Bool) && (128 + n % 64 < 192 : Bool))) = true by
          simp only [Bool.and_eq_true, decide_eq_true_eq]
          omega)]
        have harg : (224 + n / 4096 - 224) * 4096 + (128 + n / 64 % 64 - 128) * 64
            + (128 + n % 64 - 128) = n := by omega
        rw [harg]
      · rw [if_neg h3]
        simp only [List.cons_append, List.nil_append]
        unfold utf8DecodeOne
        dsimp only
        rw [if_neg (by omega), if_neg (by omega), if_neg (by omega), if_neg (by omega),
          if_pos (by omega)]
        rw [if_pos (show ((((128 ≤ 128 + n / 4096 % 64 : Bool) && (128 + n / 4096 % 64 < 192 : Bool))
            && ((128 ≤ 128 + n / 64 % 64 : Bool) && (128 + n / 64 % 64 < 192 : Bool)))
            && ((128 ≤ 128 + n % 64 : Bool) && (128 + n % 64 < 192 : Bool))) = true by
          simp only [Bool.and_eq_true, decide_eq_true_eq]
          omega)]
        have harg : (240 + n / 262144 - 240) * 262144 + (128 + n / 4096 % 64 - 128) * 4096
            + (128 + n / 64 % 64 - 128) * 64 + (128 + n % 64 - 128) = n := by omega
        rw [harg]

/-- Auxiliary: an encoded code point is a nonempty byte list. -/
theorem utf8EncodeChar_ne_nil (n : Nat) : utf8EncodeChar n ≠ [] := by
  unfold utf8EncodeChar
  split_ifs <;> simp

/-- Auxiliary: one step of the iterated decoder over an encoded code point. -/
theorem utf8DecodeAux_step (f m : Nat) (hm : m < 1114112) (bs : List Nat) :
    utf8DecodeAux (f + 1) (utf8EncodeChar m ++ bs)
      = (utf8DecodeAux f bs).map fun cs => Char.ofNat m :: cs := by
  have hone := utf8DecodeOne_encodeChar m hm bs
  obtain ⟨a, t, hat⟩ : ∃ a t, utf8EncodeChar m = a :: t := by
    cases hE : utf8EncodeChar m with
    | nil => exact absurd hE (utf8EncodeChar_ne_nil m)
    | cons a t => exact ⟨a, t, rfl⟩
  rw [hat] at hone ⊢
  rw [List.cons_append] at hone ⊢
  rw [utf8DecodeAux.eq_def]
  dsimp only
  rw [hone]

/-- Auxiliary: the iterated decoder inverts encoding given enough fuel. -/
theorem utf8DecodeAux_encode (cs : List Char) (fuel : Nat) (hf : cs.length ≤ fuel) :
    utf8DecodeAux fuel (utf8Encode cs) = some cs := by
  induction cs generalizing fuel with
  | nil =>
    show utf8DecodeAux fuel [] = some []
    cases fuel <;> rfl
  | cons c cs ih =>
    cases fuel with
    | zero => simp at hf
    | succ f =>
      have hstep : utf8Encode (c :: cs) = utf8EncodeChar c.toNat ++ utf8Encode cs := by
        simp [utf8Encode]
      rw [hstep, utf8DecodeAux_step f c.toNat (char_toNat_lt c),
        ih f (by simpa using hf), Char.ofNat_toNat]
      rfl

/-- Auxiliary: encoding emits at least one byte per character. -/
theorem length_le_utf8Encode (cs : List Char) : cs.length ≤ (utf8Encode cs).length := by
  induction cs with
  | nil => simp [utf8Encode]
  | cons c cs ih =>
    have hstep : utf8Encode (c :: cs) = utf8EncodeChar c.toNat ++ utf8Encode cs := by
      simp [utf8Encode]
    rw [hstep, List.length_append, List.length_cons]
    have h1 : 1 ≤ (utf8EncodeChar c.toNat).length := by
      cases hE : utf8EncodeChar c.toNat with
      | nil => exact absurd hE (utf8EncodeChar_ne_nil c.toNat)
      | cons a t => simp
    omega

/-- Auxiliary: UTF-8 decoding inverts UTF-8 encoding. -/
theorem utf8Decode_encode (cs : List Char) : utf8Decode (utf8Encode cs) = some cs := by
  unfold utf8Decode
  exact utf8DecodeAux_encode cs (utf8Encode cs).length (length_le_utf8Encode cs)

/-- Auxiliary: encoded code points yield bytes below 256. -/
theorem utf8EncodeChar_lt (n : Nat) (hn : n < 1114112) : ∀ b ∈ utf8EncodeChar n, b < 256 := by
  unfold utf8EncodeChar
  split_ifs with h1 h2 h3
  · intro b hb
    simp only [List.mem_singleton] at hb
    omega
  · intro b hb
    simp only [List.mem_cons, List.not_mem_nil, or_false] at hb
    rcases hb with rfl | rfl <;> omega
  · intro b hb
    simp only [List.mem_cons, List.not_mem_nil, or_false] at hb
    rcases hb with rfl | rfl | rfl <;> omega
  · intro b hb
    simp only [List.mem_cons, List.not_mem_nil, or_false] at hb
    rcases hb with rfl | rfl | rfl | rfl <;> omega

/-- Auxiliary: every byte of a UTF-8 encoded string is below 256. -/
theorem utf8Encode_lt (cs : List Char) : ∀ b ∈ utf8Encode cs, b < 256 := by
  intro b hb
  unfold utf8Encode at hb
  simp only [List.mem_flatten, List.mem_map] at hb
  obtain ⟨l, ⟨c, hc, rfl⟩, hbl⟩ := hb
  exact utf8EncodeChar_lt c.toNat (char_toNat_lt c) b hbl

/-- Auxiliary: the base64 alphabet value map inverts the alphabet. -/
theorem b64Val_b64Char : ∀ n < 64, b64Val (b64Char n) = some n := by decide

/-- Auxiliary: no base64 alphabet character is the padding character. -/
theorem b64Char_ne_eq : ∀ n < 64, b64Char n ≠ '=' := by decide

/-- Auxiliary: `btoaChars` on three leading bytes. -/
theorem btoaChars_cons (b1 b2 b3 : Nat) (rest : List Nat) :
    btoaChars (b1 :: b2 :: b3 :: rest) = b64Char (b1 / 4) :: b64Char (b1 % 4 * 16 + b2 / 16)
      :: b64Char (b2 % 16 * 4 + b3 / 64) :: b64Char (b3 % 64) :: btoaChars rest := rfl

/-- Auxiliary: `atob` inverts `btoa` on byte lists. -/
theorem atob_btoa (bs : List Nat) : (∀ b ∈ bs, b < 256) → atobChars (btoaChars bs) = some bs := by
  induction bs using btoaChars.induct with
  | case1 =>
    intro h
    rfl
  | case2 b1 =>
    intro h
    have hb1 : b1 < 256 := h b1 (by simp)
    show atobChars [b64Char (b1 / 4), b64Char (b1 % 4 * 16), '=', '='] = some [b1]
    rw [atobChars.eq_def]
    dsimp only
    rw [if_pos rfl, if_pos rfl, if_pos rfl,
      b64Val_b64Char (b1 / 4) (by omega), b64Val_b64Char (b1 % 4 * 16) (by omega)]
    simp only [Option.bind_eq_bind, Option.some_bind, Option.pure_def, Option.some.injEq,
      List.cons.injEq, and_true]
    omega
  | case3 b1 b2 =>
    intro h
    have hb1 : b1 < 256 := h b1 (by simp)
    have hb2 : b2 < 256 := h b2 (by simp)
    show atobChars [b64Char (b1 / 4), b64Char (b1 % 4 * 16 + b2 / 16),
        b64Char (b2 % 16 * 4), '='] = some [b1, b2]
    rw [atobChars.eq_def]
    dsimp only
    rw [if_neg (b64Char_ne_eq (b2 % 16 * 4) (by omega)), if_pos rfl, if_pos rfl,
      b64Val_b64Char (b1 / 4) (by omega), b64Val_b64Char (b1 % 4 * 16 + b2 / 16) (by omega),
      b64Val_b64Char (b2 % 16 * 4) (by omega)]
    simp only [Option.bind_eq_bind, Option.some_bind, Option.pure_def, Option.some.injEq,
      List.cons.injEq, and_true]
    constructor <;> omega
  | case4 b1 b2 b3 rest ih =>
    intro h
    have hb1 : b1 < 256 := h b1 (by simp)
    have hb2 : b2 < 256 := h b2 (by simp)
    have hb3 : b3 < 256 := h b3 (by simp)
    rw [btoaChars_cons, atobChars.eq_def]
    dsimp only
    rw [if_neg (b64Char_ne_eq (b2 % 16 * 4 + b3 / 64) (by omega)),
      if_neg (b64Char_ne_eq (b3 % 64) (by omega)),
      b64Val_b64Char (b1 / 4) (by omega), b64Val_b64Char (b1 % 4 * 16 + b2 / 16) (by omega),
      b64Val_b64Char (b2 % 16 * 4 + b3 / 64) (by omega), b64Val_b64Char (b3 % 64) (by omega),
      ih (fun b hb => h b (by simp [hb]))]
    simp only [Option.bind_eq_bind, Option.some_bind, Option.pure_def, Option.some.injEq,
      List.cons.injEq, and_true]
    refine ⟨by omega, by omega, by omega⟩

/-- Auxiliary: the base64 text of a byte list splits into an `=`-free body
plus at most three trailing padding characters, with total length a
multiple of four. -/
theorem btoa_split (bs : List Nat) : (∀ b ∈ bs, b < 256) →
    ∃ body k, btoaChars bs = body ++ List.replicate k '='
      ∧ k ≤ 3 ∧ (∀ c ∈ body, c ≠ '=') ∧ (body.length + k) % 4 = 0 := by
  induction bs using btoaChars.induct with
  | case1 =>
    intro h
    exact ⟨[], 0, rfl, by omega, by simp, by simp⟩
  | case2 b1 =>
    intro h
    have hb1 : b1 < 256 := h b1 (by simp)
    refine ⟨[b64Char (b1 / 4), b64Char (b1 % 4 * 16)], 2, rfl, by omega, ?_, by simp⟩
    intro c hc
    simp only [List.mem_cons, List.not_mem_nil, or_false] at hc
    rcases hc with rfl | rfl
    · exact b64Char_ne_eq (b1 / 4) (by omega)
    · exact b64Char_ne_eq (b1 % 4 * 16) (by omega)
  | case3 b1 b2 =>
    intro h
    have hb1 : b1 < 256 := h b1 (by simp)
    have hb2 : b2 < 256 := h b2 (by simp)
    refine ⟨[b64Char (b1 / 4), b64Char (b1 % 4 * 16 + b2 / 16), b64Char (b2 % 16 * 4)], 1,
      rfl, by omega, ?_, by simp⟩
    intro c hc
    simp only [List.mem_cons, List.not_mem_nil, or_false] at hc
    rcases hc with rfl | rfl | rfl
    · exact b64Char_ne_eq (b1 / 4) (by omega)
    · exact b64Char_ne_eq (b1 % 4 * 16 + b2 / 16) (by omega)
    · exact b64Char_ne_eq (b2 % 16 * 4) (by omega)
  | case4 b1 b2 b3 rest ih =>
    intro h
    have hb1 : b1 < 256 := h b1 (by simp)
    have hb2 : b2 < 256 := h b2 (by simp)
    have hb3 : b3 < 256 := h b3 (by simp)
    obtain ⟨body, k, heq, hk, hne, hmod⟩ := ih (fun b hb => h b (by simp [hb]))
    refine ⟨b64Char (b1 / 4) :: b64Char (b1 % 4 * 16 + b2 / 16)
        :: b64Char (b2 % 16 * 4 + b3 / 64) :: b64Char (b3 % 64) :: body, k, ?_, hk, ?_, ?_⟩
    · rw [btoaChars_cons, heq]
      simp only [List.cons_append]
    · intro c hc
      simp only [List.mem_cons] at hc
      rcases hc with rfl | rfl | rfl | rfl | hc
      · exact b64Char_ne_eq (b1 / 4) (by omega)
      · exact b64Char_ne_eq (b1 % 4 * 16 + b2 / 16) (by omega)
      · exact b64Char_ne_eq (b2 % 16 * 4 + b3 / 64) (by omega)
      · exact b64Char_ne_eq (b3 % 64) (by omega)
      · exact hne c hc
    · simp only [List.length_cons]
      omega

/-- Auxiliary: dropping the `=`-marker prefix of a reversed padded text. -/
theorem dropWhile_eq_marker (k : Nat) (l : List Char) (hl : ∀ c ∈ l, c ≠ '=') :
    List.dropWhile (fun c => c = '=') (List.replicate k '=' ++ l) = l := by
  induction k with
  | zero =>
    rw [List.replicate_zero, List.nil_append]
    cases l with
    | nil => rfl
    | cons a l2 =>
      rw [List.dropWhile_cons]
      simp only [decide_eq_true_eq]
      rw [if_neg (hl a (List.mem_cons_self a l2))]
  | succ m ih =>
    rw [List.replicate_succ, List.cons_append, List.dropWhile_cons]
    simp only [decide_eq_true_eq, if_true, eq_self_iff_true]
    exact ih

/-- Auxiliary: stripping trailing padding from a padded `=`-free body. -/
theorem stripTrailingEq_append_replicate (body : List Char) (k : Nat)
    (hne : ∀ c ∈ body, c ≠ '=') :
    stripTrailingEq (body ++ List.replicate k '=') = body := by
  unfold stripTrailingEq
  rw [List.reverse_append, List.reverse_replicate,
    dropWhile_eq_marker k body.reverse (fun c hc => hne c (List.mem_reverse.mp hc)),
    List.reverse_reverse]

/-- Auxiliary: re-padding a stripped body restores the padding. -/
theorem padTo4_body (body : List Char) (k : Nat) (hk : k ≤ 3)
    (hmod : (body.length + k) % 4 = 0) :
    padTo4 body = body ++ List.replicate k '=' := by
  unfold padTo4
  have hkk : (4 - body.length % 4) % 4 = k := by omega
  rw [hkk]

/-- Auxiliary: stripping then re-padding base64 text is the identity. -/
theorem pad_strip_btoa (bs : List Nat) (h : ∀ b ∈ bs, b < 256) :
    padTo4 (stripTrailingEq (btoaChars bs)) = btoaChars bs := by
  obtain ⟨body, k, heq, hk, hne, hmod⟩ := btoa_split bs h
  rw [heq, stripTrailingEq_append_replicate body k hne, padTo4_body body k hk hmod]

/-- Auxiliary: `setColor` never changes the stored version. -/
theorem setColor_version (bb : Brandbook) (t : ColorType) (hex name : String) :
    (setColor bb t hex name).version = bb.version := by
  cases t
  · rfl
  · rfl
  · show (match bb.colors.accent with
      | some a => { bb with colors := { bb.colors with
          accent := some { a with hex := hex, name := name } } }
      | none => bb).version = bb.version
    cases bb.colors.accent <;> rfl

/-- Auxiliary: `setTypography` never changes the stored version. -/
theorem setTypography_version (bb : Brandbook) (t : FontType) (family usage : String) :
    (setTypography bb t family usage).version = bb.version := by
  cases t
  · rfl
  · show (match bb.typography.secondary with
      | some f => { bb with typography := { bb.typography with
          secondary := some { f with family := family, usage := usage } } }
      | none => bb).version = bb.version
    cases bb.typography.secondary <;> rfl

/-- Auxiliary: every reachable store state has a truthy (nonempty) version. -/
theorem reachable_version_ne {P : ImportData → Prop} {bb : Brandbook}
    (h : ReachableFrom P bb) : bb.version ≠ "" := by
  induction h with
  | init now => simp [createEmptyBrandbook]
  | brandName name hr ih => simpa [setBrandName] using ih
  | color t hex name hr ih => rw [setColor_version]; exact ih
  | typo t family usage hr ih => rw [setTypography_version]; exact ih
  | logo isSvg dataUrl hr ih =>
    cases isSvg <;> simpa [setLogo] using ih
  | logoCleared hr ih => simpa [clearLogo] using ih
  | resetTo now hr ih => simp [createEmptyBrandbook]
  | fileImport now d hr hP heq ih =>
    obtain ⟨dv, dm, dc, dt, dl⟩ := d
    unfold importFromFile at heq
    cases dv with
    | none => exact Option.noConfusion heq
    | some v =>
      cases dm with
      | none => exact Option.noConfusion heq
      | some pm =>
        cases dc with
        | none => exact Option.noConfusion heq
        | some pc =>
          cases dt with
          | none => exact Option.noConfusion heq
          | some pt =>
            dsimp only at heq
            by_cases hv : v = ""
            · rw [if_pos hv] at heq
              exact Option.noConfusion heq
            · rw [if_neg hv] at heq
              simp only [Option.some.injEq] at heq
              rw [← heq]
              exact hv
  | urlImport now enc hr heq ih => exact (importFromUrlDataFn_inv heq).2.2

/-- Auxiliary: decoding the emitted share parameter restores the shared
fields over a fresh empty brandbook. -/
theorem importFromUrlDataFn_shareEncoded (now : String) (bb : Brandbook)
    (hv : bb.version ≠ "") :
    importFromUrlDataFn now (shareEncoded bb)
      = some { version := bb.version
             , meta := { name := bb.meta.name
                       , created := (createEmptyBrandbook now).meta.created
                       , generator := bb.meta.generator }
             , colors := bb.colors
             , typography := bb.typography
             , logo := (createEmptyBrandbook now).logo } := by
  unfold importFromUrlDataFn shareEncoded
  rw [pad_strip_btoa _ (utf8Encode_lt _), atob_btoa _ (utf8Encode_lt _)]
  dsimp only
  rw [utf8Decode_encode]
  dsimp only
  rw [show serShareData (getShareableData bb)
      = serShareData (getShareableData bb) ++ [] from (List.append_nil _).symm,
    parseShareData_ser]
  dsimp only [getShareableData]
  simp only [List.isEmpty_nil, if_true]
  rw [if_neg hv]

/-- C7: for every reachable brandbook state, decoding the `data` query
parameter produced by `generateShareUrl` via `importFromUrlData`
succeeds and restores the same colors and typography as the original
state, while the restored logo is empty (both `logo.svg` and `logo.png`
null): the share payload is a round-trip for colors and typography and
never carries logo data. -/
theorem share_roundtrip (now : String) (bb : Brandbook) (h : Reachable bb) :
    ∃ bb2, importFromUrlDataFn now (shareEncoded bb) = some bb2
      ∧ bb2.colors = bb.colors ∧ bb2.typography = bb.typography
      ∧ bb2.logo.svg = none ∧ bb2.logo.png = none :=
  ⟨_, importFromUrlDataFn_shareEncoded now bb (reachable_version_ne h), rfl, rfl, rfl, rfl⟩

/-- Witness: the round-trip at the freshly created store state. -/
theorem share_roundtrip_witness :
    ∃ bb2, importFromUrlDataFn "2024-01-01" (shareEncoded (createEmptyBrandbook "2024-01-01"))
        = some bb2
      ∧ bb2.colors = (createEmptyBrandbook "2024-01-01").colors
      ∧ bb2.typography = (createEmptyBrandbook "2024-01-01").typography
      ∧ bb2.logo.svg = none ∧ bb2.logo.png = none :=
  share_roundtrip "2024-01-01" (createEmptyBrandbook "2024-01-01")
    (ReachableFrom.init "2024-01-01")

end BV
